import Mathlib

/-!
Shallow embedding of the Polymarket detection bot (src/polymarket_bot.py).

Modelling conventions:
* Python floats (sizes, prices, values, thresholds, market volume) are
  modelled as rationals; all comparisons in the source are order/equality
  comparisons on such numbers, which rationals capture exactly.
* Timestamps are ISO strings in the source, parsed with
  datetime.fromisoformat before any arithmetic.  We model a timestamp as an
  integer number of seconds; timedelta.total_seconds becomes integer
  subtraction and timedelta.days becomes flooring division by 86400
  (Int.fdiv floors, exactly like timedelta.days for negative spans).
  In the dedup key the timestamp is interpolated as text, modelled with
  toString.
* dict.get with a default is modelled by fields that are already defaulted
  (Trade.maker_address, Trade.outcome carry the defaulted value), except
  where the presence of the key is observable: market_data.get with key
  condition_id and question return Option String, since the source
  distinguishes a missing id (falsy, interpolated as the text None) from a
  present one.
* defaultdict(list) maps are modelled as total functions from String to
  lists (absent keys map to []), plus an explicit insertion-ordered key
  list for wallet_history, because the source iterates over its items and
  tests membership with the in operator.  Dict keys are unique, which the
  key list preserves by construction (append only when absent).
* The sent_alerts set is modelled as a list of strings with
  membership-testing insert; only membership is observed by the source.
-/

namespace PolymarketBot

/-- One entry of wallet_history (polymarket_bot.py line 235). -/
structure WalletEntry where
  timestamp : Int
  market : String
  market_id : Option String
  size : ℚ
  value : ℚ
  price : ℚ
  outcome : String
deriving DecidableEq, Repr

/-- One entry of market_prices (line 247). -/
structure PricePoint where
  timestamp : Int
  price : ℚ
deriving DecidableEq, Repr

/-- One entry of wallet_outcomes (line 300). -/
structure OutcomeEntry where
  market_id : Option String
  outcome : String
  price : ℚ
deriving DecidableEq, Repr

/-- Trade input (fields read at lines 224-229, after dict-get defaulting). -/
structure Trade where
  maker_address : String
  size : ℚ
  price : ℚ
  timestamp : Int
  outcome : String
deriving DecidableEq, Repr

/-- Market metadata input.  condition_id and question are Option because the
source uses market_data.get without a default for them where absence is
observable. -/
structure MarketData where
  condition_id : Option String
  question : Option String
  volume : ℚ
deriving DecidableEq, Repr

/-- The configurable thresholds dict (lines 33-45). -/
structure Thresholds where
  fresh_wallet_days : ℚ
  fresh_wallet_min_value : ℚ
  unusual_size_multiplier : ℚ
  niche_volume_max : ℚ
  niche_trades_min : ℚ
  win_rate_conviction_min : ℚ
  win_rate_min_value : ℚ
  pre_move_min_value : ℚ
  pre_move_change_pct : ℚ
  coordinated_min_value : ℚ
  coordinated_min_wallets : ℚ
deriving DecidableEq, Repr

/-- The initial threshold values (lines 33-45). -/
def defaultThresholds : Thresholds :=
  { fresh_wallet_days := 7
    fresh_wallet_min_value := 1000
    unusual_size_multiplier := 5/2
    niche_volume_max := 10000
    niche_trades_min := 3
    win_rate_conviction_min := 7
    win_rate_min_value := 300
    pre_move_min_value := 500
    pre_move_change_pct := 3/20
    coordinated_min_value := 200
    coordinated_min_wallets := 3 }

/-- The six alert type strings of the source. -/
inductive AlertKind
  | freshWalletLargeBet
  | unusualSize
  | repeatNichePlayer
  | highWinRateTrader
  | preMovePositioning
  | coordinatedEntry
deriving DecidableEq, Repr

/-- An emitted alert.  The source alert dicts carry further rule-specific
payload fields (age_days, avg_size, trades_count, ...) that no claim
references; we keep the type tag, the wallet and the dedup key, which are
common to all six alert dicts. -/
structure Alert where
  kind : AlertKind
  wallet : String
  key : String
deriving DecidableEq, Repr

/-- The mutable engine state (lines 21-25). -/
structure BotState where
  wallets : List String
  wallet_history : String → List WalletEntry
  market_volumes : String → List ℚ
  market_prices : String → List PricePoint
  wallet_outcomes : String → List OutcomeEntry
  sent_alerts : List String

/-- All stores start empty (lines 21-25). -/
def initState : BotState :=
  { wallets := []
    wallet_history := fun _ => []
    market_volumes := fun _ => []
    market_prices := fun _ => []
    wallet_outcomes := fun _ => []
    sent_alerts := [] }

/-- Python truthiness of an optional string: None and the empty string are
falsy (the `if market_id:` guards). -/
def truthyId (o : Option String) : Bool :=
  match o with
  | none => false
  | some s => !(s == "")

/-- How an optional string is interpolated into an f-string: None renders
as the text None. -/
def optStr (o : Option String) : String :=
  match o with
  | none => "None"
  | some s => s

/-- The dict key used for the per-market windows (the condition_id string
itself; only reached under the truthiness guard). -/
def midKey (o : Option String) : String := o.getD ""

/-- Line 231: alert_key is the f-string wallet_conditionId_timestamp, with
underscores between the three pieces. -/
def mkAlertKey (wallet : String) (mid : Option String) (ts : Int) : String :=
  wallet ++ "_" ++ optStr mid ++ "_" ++ toString ts

/-- Pointwise update of a string-keyed map. -/
def updFun {α : Type} (f : String → List α) (k : String) (v : List α) :
    String → List α :=
  fun x => if x = k then v else f x

/-- The FIFO cap of the source: after an append, pop the front element once
if the length exceeds the cap (lines 251-252 and 282-283). -/
def trimWindow {α : Type} (cap : Nat) (l : List α) : List α :=
  if l.length > cap then l.tail else l

/-- The last n elements of a list in order (Python slice l[-n:]). -/
def takeLast {α : Type} (n : Nat) (l : List α) : List α :=
  l.drop (l.length - n)

/-- Set-style insert into the sent_alerts list. -/
def listInsert (k : String) (l : List String) : List String :=
  if k ∈ l then l else l ++ [k]

/-- get_wallet_age (lines 212-218): days since the first recorded trade of
the wallet, measured from the wall clock now, None if the wallet has no
history.  timedelta.days floors, hence Int.fdiv. -/
def getWalletAge (s : BotState) (now : Int) (addr : String) : Option Int :=
  if addr ∈ s.wallets then
    some (Int.fdiv (now - (((s.wallet_history addr).head?.map
      (fun e => e.timestamp)).getD 0)) 86400)
  else none

/-- The wallet_history entry built at lines 235-243. -/
def mkEntry (t : Trade) (mkt : MarketData) : WalletEntry :=
  { timestamp := t.timestamp
    market := mkt.question.getD "unknown"
    market_id := mkt.condition_id
    size := t.size
    value := t.size * t.price
    price := t.price
    outcome := t.outcome }

/-- The wallet_outcomes entry built at lines 300-304. -/
def mkOutcome (t : Trade) (mkt : MarketData) : OutcomeEntry :=
  { market_id := mkt.condition_id, outcome := t.outcome, price := t.price }

/-- Lines 235-243: append the trade to wallet_history. -/
def recordWalletHistory (s : BotState) (t : Trade) (mkt : MarketData) :
    BotState :=
  { s with
    wallets :=
      if t.maker_address ∈ s.wallets then s.wallets
      else s.wallets ++ [t.maker_address]
    wallet_history :=
      updFun s.wallet_history t.maker_address
        (s.wallet_history t.maker_address ++ [mkEntry t mkt]) }

/-- Lines 245-252: append the price point and trim the 200-cap window,
only when the market has a truthy condition_id. -/
def recordPrice (s : BotState) (t : Trade) (mkt : MarketData) : BotState :=
  if truthyId mkt.condition_id then
    let k := midKey mkt.condition_id
    { s with
      market_prices :=
        updFun s.market_prices k
          (trimWindow 200 (s.market_prices k ++
            [{ timestamp := t.timestamp, price := t.price }])) }
  else s

/-- Lines 281-283: append the size and trim the 100-cap window, only when
the market has a truthy condition_id. -/
def recordSize (s : BotState) (t : Trade) (mkt : MarketData) : BotState :=
  if truthyId mkt.condition_id then
    let k := midKey mkt.condition_id
    { s with
      market_volumes :=
        updFun s.market_volumes k
          (trimWindow 100 (s.market_volumes k ++ [t.size])) }
  else s

/-- Lines 300-304: append to wallet_outcomes. -/
def recordOutcome (s : BotState) (t : Trade) (mkt : MarketData) : BotState :=
  { s with
    wallet_outcomes :=
      updFun s.wallet_outcomes t.maker_address
        (s.wallet_outcomes t.maker_address ++ [mkOutcome t mkt]) }

/-- Rule 1, lines 254-265: fresh wallet large bet.  Reads the post-append
wallet history through get_wallet_age. -/
def freshWalletAlerts (cfg : Thresholds) (now : Int) (s : BotState)
    (t : Trade) (key : String) : List Alert :=
  match getWalletAge s now t.maker_address with
  | some age =>
      if (age : ℚ) < cfg.fresh_wallet_days ∧
          t.size * t.price > cfg.fresh_wallet_min_value then
        [{ kind := .freshWalletLargeBet, wallet := t.maker_address,
           key := key }]
      else []
  | none => []

/-- Rule 2, lines 267-279: unusual size.  Reads the size window before the
current size is appended. -/
def unusualSizeAlerts (cfg : Thresholds) (s : BotState) (t : Trade)
    (mkt : MarketData) (key : String) : List Alert :=
  if truthyId mkt.condition_id then
    let recent := s.market_volumes (midKey mkt.condition_id)
    if 10 < recent.length ∧
        t.size > (recent.sum / (recent.length : ℚ)) *
          cfg.unusual_size_multiplier then
      [{ kind := .unusualSize, wallet := t.maker_address, key := key }]
    else []
  else []

/-- Rule 3, lines 285-298: repeat niche player.  Counts post-append wallet
history entries whose recorded market question equals the current market
question (the source compares t[market] == market_data.get with key
question, so a missing question matches nothing). -/
def nicheAlerts (cfg : Thresholds) (s : BotState) (t : Trade)
    (mkt : MarketData) (key : String) : List Alert :=
  let same := (s.wallet_history t.maker_address).filter
    (fun e => mkt.question == some e.market)
  if (same.length : ℚ) > cfg.niche_trades_min ∧
      mkt.volume < cfg.niche_volume_max then
    [{ kind := .repeatNichePlayer, wallet := t.maker_address, key := key }]
  else []

/-- Rule 4, lines 306-323: high conviction.  Reads the post-append outcome
history. -/
def convictionAlerts (cfg : Thresholds) (s : BotState) (t : Trade)
    (key : String) : List Alert :=
  let outs := s.wallet_outcomes t.maker_address
  if 10 ≤ outs.length then
    let hc := (takeLast 20 outs).filter
      (fun o => decide (o.price > 8/10 ∨ o.price < 2/10))
    if cfg.win_rate_conviction_min ≤ (hc.length : ℚ) ∧
        t.size * t.price > cfg.win_rate_min_value then
      [{ kind := .highWinRateTrader, wallet := t.maker_address,
         key := key }]
    else []
  else []

/-- Rule 5, lines 325-348: pre-move positioning.  Reads the price window
after the current price point was appended; the 30-minute filter keeps
entries whose timestamp is strictly less than 1800 seconds before the
current trade timestamp; the oldest kept entry is the first in stored
order. -/
def preMoveAlerts (cfg : Thresholds) (s : BotState) (t : Trade)
    (mkt : MarketData) (key : String) : List Alert :=
  if truthyId mkt.condition_id ∧
      t.size * t.price > cfg.pre_move_min_value then
    let recent := s.market_prices (midKey mkt.condition_id)
    if 10 < recent.length then
      let last30 := recent.filter
        (fun p => decide (t.timestamp - p.timestamp < 1800))
      if 5 ≤ last30.length then
        let oldPrice := ((last30.head?.map (fun p => p.price)).getD 0)
        if |t.price - oldPrice| > cfg.pre_move_change_pct then
          [{ kind := .preMovePositioning, wallet := t.maker_address,
             key := key }]
        else []
      else []
    else []
  else []

/-- Rule 6, lines 350-373: coordinated entry.  Scans every other wallet in
the (post-append) history, keeps those with a trade among their last five
on the same market and outcome within 300 seconds in absolute value, and
counts them distinctly (set semantics; the dict keys are unique and dedup
keeps the filter result identical on duplicate-free key lists). -/
def coordAlerts (cfg : Thresholds) (s : BotState) (t : Trade)
    (mkt : MarketData) (key : String) : List Alert :=
  if truthyId mkt.condition_id ∧
      t.size * t.price > cfg.coordinated_min_value then
    let matchWallets := s.wallets.filter (fun w =>
      (!(w == t.maker_address)) &&
      (takeLast 5 (s.wallet_history w)).any (fun e =>
        (e.market_id == mkt.condition_id) && (e.outcome == t.outcome) &&
        decide ((t.timestamp - e.timestamp).natAbs < 300)))
    if cfg.coordinated_min_wallets ≤
        ((matchWallets.dedup.length : ℚ) + 1) then
      [{ kind := .coordinatedEntry, wallet := t.maker_address,
         key := key }]
    else []
  else []

/-- analyze_trade (lines 220-378).  now is the wall clock read by
get_wallet_age; all other time arithmetic uses the trade timestamp, as in
the source.  Returns the alert batch and the mutated state. -/
def analyze_trade (cfg : Thresholds) (now : Int) (s : BotState) (t : Trade)
    (mkt : MarketData) : List Alert × BotState :=
  let key := mkAlertKey t.maker_address mkt.condition_id t.timestamp
  if key ∈ s.sent_alerts then ([], s)
  else
    let s1 := recordWalletHistory s t mkt
    let s2 := recordPrice s1 t mkt
    let a1 := freshWalletAlerts cfg now s2 t key
    let a2 := unusualSizeAlerts cfg s2 t mkt key
    let s3 := recordSize s2 t mkt
    let a3 := nicheAlerts cfg s3 t mkt key
    let s4 := recordOutcome s3 t mkt
    let a4 := convictionAlerts cfg s4 t key
    let a5 := preMoveAlerts cfg s4 t mkt key
    let a6 := coordAlerts cfg s4 t mkt key
    let alerts := a1 ++ a2 ++ a3 ++ a4 ++ a5 ++ a6
    (alerts,
      { s4 with
        sent_alerts :=
          alerts.foldl (fun acc a => listInsert a.key acc)
            s4.sent_alerts })

/-- The dedup key of a call, as a function of the inputs. -/
def keyOf (t : Trade) (mkt : MarketData) : String :=
  mkAlertKey t.maker_address mkt.condition_id t.timestamp

/-- The store state after the wallet-history and price-window updates
(the state read by rules 1 and 2). -/
def stage2 (s : BotState) (t : Trade) (mkt : MarketData) : BotState :=
  recordPrice (recordWalletHistory s t mkt) t mkt

/-- The store state after the size-window update (read by rule 3). -/
def stage3 (s : BotState) (t : Trade) (mkt : MarketData) : BotState :=
  recordSize (stage2 s t mkt) t mkt

/-- The store state after the outcome update (read by rules 4, 5, 6). -/
def stage4 (s : BotState) (t : Trade) (mkt : MarketData) : BotState :=
  recordOutcome (stage3 s t mkt) t mkt

/-- The alert batch of a non-duplicate analyze_trade call, rule by rule in
source order. -/
def alertsOf (cfg : Thresholds) (now : Int) (s : BotState) (t : Trade)
    (mkt : MarketData) : List Alert :=
  freshWalletAlerts cfg now (stage2 s t mkt) t (keyOf t mkt) ++
  unusualSizeAlerts cfg (stage2 s t mkt) t mkt (keyOf t mkt) ++
  nicheAlerts cfg (stage3 s t mkt) t mkt (keyOf t mkt) ++
  convictionAlerts cfg (stage4 s t mkt) t (keyOf t mkt) ++
  preMoveAlerts cfg (stage4 s t mkt) t mkt (keyOf t mkt) ++
  coordAlerts cfg (stage4 s t mkt) t mkt (keyOf t mkt)

/-- Response of the /set command branch.  okSet corresponds to the
confirmation message, unknownParam and invalidValue to the two error
messages of lines 155 and 157. -/
inductive SetResult
  | okSet
  | unknownParam
  | invalidValue
deriving DecidableEq, Repr

/-- The keys of the thresholds dict, in insertion order (lines 33-45). -/
def thresholdNames : List String :=
  ["fresh_wallet_days", "fresh_wallet_min_value", "unusual_size_multiplier",
   "niche_volume_max", "niche_trades_min", "win_rate_conviction_min",
   "win_rate_min_value", "pre_move_min_value", "pre_move_change_pct",
   "coordinated_min_value", "coordinated_min_wallets"]

/-- Dict read thresholds[p] as an Option. -/
def getThresholdByName (th : Thresholds) (p : String) : Option ℚ :=
  if p = "fresh_wallet_days" then some th.fresh_wallet_days
  else if p = "fresh_wallet_min_value" then some th.fresh_wallet_min_value
  else if p = "unusual_size_multiplier" then some th.unusual_size_multiplier
  else if p = "niche_volume_max" then some th.niche_volume_max
  else if p = "niche_trades_min" then some th.niche_trades_min
  else if p = "win_rate_conviction_min" then some th.win_rate_conviction_min
  else if p = "win_rate_min_value" then some th.win_rate_min_value
  else if p = "pre_move_min_value" then some th.pre_move_min_value
  else if p = "pre_move_change_pct" then some th.pre_move_change_pct
  else if p = "coordinated_min_value" then some th.coordinated_min_value
  else if p = "coordinated_min_wallets" then some th.coordinated_min_wallets
  else none

/-- Dict write thresholds[p] = v (no-op on an unknown key; that branch is
never reached by process_command, which checks membership first). -/
def setThresholdByName (th : Thresholds) (p : String) (v : ℚ) : Thresholds :=
  if p = "fresh_wallet_days" then { th with fresh_wallet_days := v }
  else if p = "fresh_wallet_min_value" then
    { th with fresh_wallet_min_value := v }
  else if p = "unusual_size_multiplier" then
    { th with unusual_size_multiplier := v }
  else if p = "niche_volume_max" then { th with niche_volume_max := v }
  else if p = "niche_trades_min" then { th with niche_trades_min := v }
  else if p = "win_rate_conviction_min" then
    { th with win_rate_conviction_min := v }
  else if p = "win_rate_min_value" then { th with win_rate_min_value := v }
  else if p = "pre_move_min_value" then { th with pre_move_min_value := v }
  else if p = "pre_move_change_pct" then { th with pre_move_change_pct := v }
  else if p = "coordinated_min_value" then
    { th with coordinated_min_value := v }
  else if p = "coordinated_min_wallets" then
    { th with coordinated_min_wallets := v }
  else th

/-- The /set branch of process_command (lines 145-157): param is parts[1];
parsed is the result of float(parts[2]), abstracted as an Option because
the float builtin belongs to the language runtime, not to this repository:
none models the ValueError branch. -/
def processSet (th : Thresholds) (param : String) (parsed : Option ℚ) :
    SetResult × Thresholds :=
  match parsed with
  | none => (.invalidValue, th)
  | some v =>
      if param ∈ thresholdNames then (.okSet, setThresholdByName th param v)
      else (.unknownParam, th)

/-- One processed input of the scan loop: the wall clock at the call plus
the (Trade, MarketMetadata) pair. -/
structure ScanStep where
  now : Int
  trade : Trade
  market : MarketData

/-- The sizes that one analyze_trade call appends to the size window of
market m: one element exactly when the call is not a duplicate and the
market id is truthy and names m. -/
def sizeAppends (s : BotState) (st : ScanStep) (m : String) : List ℚ :=
  if keyOf st.trade st.market ∈ s.sent_alerts then []
  else if truthyId st.market.condition_id ∧
      midKey st.market.condition_id = m then [st.trade.size]
  else []

/-- The price points that one analyze_trade call appends to the price
window of market m. -/
def priceAppends (s : BotState) (st : ScanStep) (m : String) :
    List PricePoint :=
  if keyOf st.trade st.market ∈ s.sent_alerts then []
  else if truthyId st.market.condition_id ∧
      midKey st.market.condition_id = m then
    [{ timestamp := st.trade.timestamp, price := st.trade.price }]
  else []

/-- One step of the instrumented run: the engine state moves by
analyze_trade, and the two unbounded logs record every appended size and
price point per market. -/
def logStep (cfg : Thresholds)
    (acc : BotState × (String → List ℚ) × (String → List PricePoint))
    (st : ScanStep) :
    BotState × (String → List ℚ) × (String → List PricePoint) :=
  ((analyze_trade cfg st.now acc.1 st.trade st.market).2,
   fun m => acc.2.1 m ++ sizeAppends acc.1 st m,
   fun m => acc.2.2 m ++ priceAppends acc.1 st m)

/-- The instrumented run from the empty state. -/
def runWithLogs (cfg : Thresholds) (steps : List ScanStep) :
    BotState × (String → List ℚ) × (String → List PricePoint) :=
  steps.foldl (logStep cfg) (initState, fun _ => [], fun _ => [])

/-- The plain engine run from the empty state: each step feeds one trade
to analyze_trade and keeps the mutated state. -/
def runBot (cfg : Thresholds) (steps : List ScanStep) : BotState :=
  steps.foldl (fun s st => (analyze_trade cfg st.now s st.trade st.market).2)
    initState

/-! Concrete scenario data used by witnesses and counterexamples. -/

/-- A market with id M, question Q and zero listed volume. -/
def mktM : MarketData :=
  { condition_id := some "M", question := some "Q", volume := 0 }

/-- A market without a condition id. -/
def mktNone : MarketData :=
  { condition_id := none, question := some "Q", volume := 0 }

/-- A zero-value trade by wallet W at the given time. -/
def trW (ts : Int) : Trade :=
  { maker_address := "W", size := 0, price := 0, timestamp := ts,
    outcome := "Yes" }

/-- A value-2000 trade at the given wallet and time. -/
def bigTrade (w : String) (ts : Int) : Trade :=
  { maker_address := w, size := 2000, price := 1, timestamp := ts,
    outcome := "Yes" }

/-- A value-500 trade at the given wallet, time and outcome. -/
def midTrade (w : String) (ts : Int) (oc : String) : Trade :=
  { maker_address := w, size := 1000, price := 1/2, timestamp := ts,
    outcome := oc }

/-- The engine state after the empty start processed the two zero-value
trades trW 1 and trW 2 (neither fires any rule, so the dedup ledger stays
empty while all four stores recorded them). -/
def stateW : BotState :=
  { wallets := ["W"]
    wallet_history := fun w =>
      if w = "W" then [mkEntry (trW 1) mktM, mkEntry (trW 2) mktM] else []
    market_volumes := fun m => if m = "M" then [0, 0] else []
    market_prices := fun m =>
      if m = "M" then [{ timestamp := 1, price := 0 },
        { timestamp := 2, price := 0 }] else []
    wallet_outcomes := fun w =>
      if w = "W" then [mkOutcome (trW 1) mktM, mkOutcome (trW 2) mktM]
      else []
    sent_alerts := [] }

/-- The engine state one step later: stateW after it also processed the
zero-value trade trW 100 (still no alert fired, ledger still empty). -/
def stateW3 : BotState :=
  { wallets := ["W"]
    wallet_history := fun w =>
      if w = "W" then [mkEntry (trW 1) mktM, mkEntry (trW 2) mktM,
        mkEntry (trW 100) mktM] else []
    market_volumes := fun m => if m = "M" then [0, 0, 0] else []
    market_prices := fun m =>
      if m = "M" then [{ timestamp := 1, price := 0 },
        { timestamp := 2, price := 0 },
        { timestamp := 100, price := 0 }] else []
    wallet_outcomes := fun w =>
      if w = "W" then [mkOutcome (trW 1) mktM, mkOutcome (trW 2) mktM,
        mkOutcome (trW 100) mktM] else []
    sent_alerts := [] }

/-- The engine state after the empty start processed bigTrade B 0 and
bigTrade C 10 at wall clock 20 (each fired a fresh-wallet alert, so both
keys are marked). -/
def stateBC : BotState :=
  { wallets := ["B", "C"]
    wallet_history := fun w =>
      if w = "B" then [mkEntry (bigTrade "B" 0) mktM]
      else if w = "C" then [mkEntry (bigTrade "C" 10) mktM]
      else []
    market_volumes := fun m => if m = "M" then [2000, 2000] else []
    market_prices := fun m =>
      if m = "M" then [{ timestamp := 0, price := 1 },
        { timestamp := 10, price := 1 }] else []
    wallet_outcomes := fun w =>
      if w = "B" then [mkOutcome (bigTrade "B" 0) mktM]
      else if w = "C" then [mkOutcome (bigTrade "C" 10) mktM]
      else []
    sent_alerts := ["B_M_0", "C_M_10"] }

/-- A single price point at time zero and price one half. -/
def halfPoint : PricePoint := { timestamp := 0, price := 1/2 }

/-- A state whose price window for market M already holds ten points. -/
def statePrices : BotState :=
  { initState with
    market_prices := fun m =>
      if m = "M" then
        [halfPoint, halfPoint, halfPoint, halfPoint, halfPoint,
         halfPoint, halfPoint, halfPoint, halfPoint, halfPoint]
      else [] }

/-- A state whose size window for market M already holds eleven sizes. -/
def stateSizes : BotState :=
  { initState with
    market_volumes := fun m =>
      if m = "M" then [1, 1, 1, 1, 1, 1, 1, 1, 1, 1, 1] else [] }


/-- C6 scenario, first intermediate state: after wallet D traded outcome
No on market M at time tD (value 500 fires nothing). -/
def c6sD (tD : Int) : BotState :=
  { wallets := ["D"]
    wallet_history := fun w =>
      if w = "D" then [mkEntry (midTrade "D" tD "No") mktM] else []
    market_volumes := fun m => if m = "M" then [1000] else []
    market_prices := fun m =>
      if m = "M" then [{ timestamp := tD, price := 1/2 }] else []
    wallet_outcomes := fun w =>
      if w = "D" then [mkOutcome (midTrade "D" tD "No") mktM] else []
    sent_alerts := [] }

/-- C6 scenario, after wallet A also traded outcome Yes at time tA. -/
def c6sA (tD tA : Int) : BotState :=
  { wallets := ["D", "A"]
    wallet_history := fun w =>
      if w = "D" then [mkEntry (midTrade "D" tD "No") mktM]
      else if w = "A" then [mkEntry (midTrade "A" tA "Yes") mktM]
      else []
    market_volumes := fun m => if m = "M" then [1000, 1000] else []
    market_prices := fun m =>
      if m = "M" then [{ timestamp := tD, price := 1/2 },
        { timestamp := tA, price := 1/2 }] else []
    wallet_outcomes := fun w =>
      if w = "D" then [mkOutcome (midTrade "D" tD "No") mktM]
      else if w = "A" then [mkOutcome (midTrade "A" tA "Yes") mktM]
      else []
    sent_alerts := [] }

/-- C6 scenario, after wallet B also traded outcome Yes at time tB. -/
def c6sB (tD tA tB : Int) : BotState :=
  { wallets := ["D", "A", "B"]
    wallet_history := fun w =>
      if w = "D" then [mkEntry (midTrade "D" tD "No") mktM]
      else if w = "A" then [mkEntry (midTrade "A" tA "Yes") mktM]
      else if w = "B" then [mkEntry (midTrade "B" tB "Yes") mktM]
      else []
    market_volumes := fun m => if m = "M" then [1000, 1000, 1000] else []
    market_prices := fun m =>
      if m = "M" then [{ timestamp := tD, price := 1/2 },
        { timestamp := tA, price := 1/2 },
        { timestamp := tB, price := 1/2 }] else []
    wallet_outcomes := fun w =>
      if w = "D" then [mkOutcome (midTrade "D" tD "No") mktM]
      else if w = "A" then [mkOutcome (midTrade "A" tA "Yes") mktM]
      else if w = "B" then [mkOutcome (midTrade "B" tB "Yes") mktM]
      else []
    sent_alerts := [] }

end PolymarketBot

namespace PolymarketBot

/-! ### Projection lemmas for the store-update functions -/

@[simp] lemma recordWalletHistory_market_volumes (s : BotState) (t : Trade)
    (mkt : MarketData) :
    (recordWalletHistory s t mkt).market_volumes = s.market_volumes := rfl

@[simp] lemma recordWalletHistory_market_prices (s : BotState) (t : Trade)
    (mkt : MarketData) :
    (recordWalletHistory s t mkt).market_prices = s.market_prices := rfl

@[simp] lemma recordWalletHistory_wallet_outcomes (s : BotState) (t : Trade)
    (mkt : MarketData) :
    (recordWalletHistory s t mkt).wallet_outcomes = s.wallet_outcomes := rfl

@[simp] lemma recordWalletHistory_sent_alerts (s : BotState) (t : Trade)
    (mkt : MarketData) :
    (recordWalletHistory s t mkt).sent_alerts = s.sent_alerts := rfl

lemma recordWalletHistory_wallets (s : BotState) (t : Trade)
    (mkt : MarketData) :
    (recordWalletHistory s t mkt).wallets =
      if t.maker_address ∈ s.wallets then s.wallets
      else s.wallets ++ [t.maker_address] := rfl

lemma recordWalletHistory_wallet_history (s : BotState) (t : Trade)
    (mkt : MarketData) :
    (recordWalletHistory s t mkt).wallet_history =
      updFun s.wallet_history t.maker_address
        (s.wallet_history t.maker_address ++ [mkEntry t mkt]) := rfl

@[simp] lemma recordPrice_wallets (s : BotState) (t : Trade)
    (mkt : MarketData) : (recordPrice s t mkt).wallets = s.wallets := by
  unfold recordPrice; split <;> rfl

@[simp] lemma recordPrice_wallet_history (s : BotState) (t : Trade)
    (mkt : MarketData) :
    (recordPrice s t mkt).wallet_history = s.wallet_history := by
  unfold recordPrice; split <;> rfl

@[simp] lemma recordPrice_market_volumes (s : BotState) (t : Trade)
    (mkt : MarketData) :
    (recordPrice s t mkt).market_volumes = s.market_volumes := by
  unfold recordPrice; split <;> rfl

@[simp] lemma recordPrice_wallet_outcomes (s : BotState) (t : Trade)
    (mkt : MarketData) :
    (recordPrice s t mkt).wallet_outcomes = s.wallet_outcomes := by
  unfold recordPrice; split <;> rfl

@[simp] lemma recordPrice_sent_alerts (s : BotState) (t : Trade)
    (mkt : MarketData) :
    (recordPrice s t mkt).sent_alerts = s.sent_alerts := by
  unfold recordPrice; split <;> rfl

lemma recordPrice_market_prices (s : BotState) (t : Trade)
    (mkt : MarketData) :
    (recordPrice s t mkt).market_prices =
      if truthyId mkt.condition_id then
        updFun s.market_prices (midKey mkt.condition_id)
          (trimWindow 200 (s.market_prices (midKey mkt.condition_id) ++
            [{ timestamp := t.timestamp, price := t.price }]))
      else s.market_prices := by
  unfold recordPrice; split <;> simp_all

@[simp] lemma recordSize_wallets (s : BotState) (t : Trade)
    (mkt : MarketData) : (recordSize s t mkt).wallets = s.wallets := by
  unfold recordSize; split <;> rfl

@[simp] lemma recordSize_wallet_history (s : BotState) (t : Trade)
    (mkt : MarketData) :
    (recordSize s t mkt).wallet_history = s.wallet_history := by
  unfold recordSize; split <;> rfl

@[simp] lemma recordSize_market_prices (s : BotState) (t : Trade)
    (mkt : MarketData) :
    (recordSize s t mkt).market_prices = s.market_prices := by
  unfold recordSize; split <;> rfl

@[simp] lemma recordSize_wallet_outcomes (s : BotState) (t : Trade)
    (mkt : MarketData) :
    (recordSize s t mkt).wallet_outcomes = s.wallet_outcomes := by
  unfold recordSize; split <;> rfl

@[simp] lemma recordSize_sent_alerts (s : BotState) (t : Trade)
    (mkt : MarketData) :
    (recordSize s t mkt).sent_alerts = s.sent_alerts := by
  unfold recordSize; split <;> rfl

lemma recordSize_market_volumes (s : BotState) (t : Trade)
    (mkt : MarketData) :
    (recordSize s t mkt).market_volumes =
      if truthyId mkt.condition_id then
        updFun s.market_volumes (midKey mkt.condition_id)
          (trimWindow 100 (s.market_volumes (midKey mkt.condition_id) ++
            [t.size]))
      else s.market_volumes := by
  unfold recordSize; split <;> simp_all

@[simp] lemma recordOutcome_wallets (s : BotState) (t : Trade)
    (mkt : MarketData) : (recordOutcome s t mkt).wallets = s.wallets := rfl

@[simp] lemma recordOutcome_wallet_history (s : BotState) (t : Trade)
    (mkt : MarketData) :
    (recordOutcome s t mkt).wallet_history = s.wallet_history := rfl

@[simp] lemma recordOutcome_market_volumes (s : BotState) (t : Trade)
    (mkt : MarketData) :
    (recordOutcome s t mkt).market_volumes = s.market_volumes := rfl

@[simp] lemma recordOutcome_market_prices (s : BotState) (t : Trade)
    (mkt : MarketData) :
    (recordOutcome s t mkt).market_prices = s.market_prices := rfl

@[simp] lemma recordOutcome_sent_alerts (s : BotState) (t : Trade)
    (mkt : MarketData) :
    (recordOutcome s t mkt).sent_alerts = s.sent_alerts := rfl

lemma recordOutcome_wallet_outcomes (s : BotState) (t : Trade)
    (mkt : MarketData) :
    (recordOutcome s t mkt).wallet_outcomes =
      updFun s.wallet_outcomes t.maker_address
        (s.wallet_outcomes t.maker_address ++ [mkOutcome t mkt]) := rfl

/-! ### listInsert and the sent-alerts fold -/

lemma mem_listInsert {x k : String} {l : List String} :
    x ∈ listInsert k l ↔ x = k ∨ x ∈ l := by
  unfold listInsert
  split
  · rename_i h
    exact ⟨fun hx => Or.inr hx, fun hx => hx.elim (fun e => e ▸ h) id⟩
  · simp [List.mem_append, or_comm]

lemma listInsert_idem (k : String) (l : List String) :
    listInsert k (listInsert k l) = listInsert k l := by
  rw [listInsert, if_pos (mem_listInsert.mpr (Or.inl rfl))]

lemma foldl_listInsert_const {l : List Alert} {k : String}
    (hall : ∀ a ∈ l, a.key = k) (acc : List String) :
    l.foldl (fun acc a => listInsert a.key acc) acc =
      if l = [] then acc else listInsert k acc := by
  induction l generalizing acc with
  | nil => rfl
  | cons a rest ih =>
    simp only [List.foldl_cons]
    rw [hall a (List.mem_cons_self a rest),
      ih (fun b hb => hall b (List.mem_cons_of_mem a hb))]
    by_cases hr : rest = [] <;> simp [hr, listInsert_idem]

/-! ### Shape of each rule output -/

lemma mem_freshWalletAlerts {cfg : Thresholds} {now : Int} {s : BotState}
    {t : Trade} {k : String} {a : Alert}
    (h : a ∈ freshWalletAlerts cfg now s t k) :
    a = { kind := .freshWalletLargeBet, wallet := t.maker_address,
          key := k } := by
  unfold freshWalletAlerts at h
  split at h
  · split at h
    · simpa using h
    · simp at h
  · simp at h

lemma mem_unusualSizeAlerts {cfg : Thresholds} {s : BotState} {t : Trade}
    {mkt : MarketData} {k : String} {a : Alert}
    (h : a ∈ unusualSizeAlerts cfg s t mkt k) :
    a = { kind := .unusualSize, wallet := t.maker_address, key := k } := by
  simp only [unusualSizeAlerts] at h
  split at h
  · split at h
    · simpa using h
    · simp at h
  · simp at h

lemma mem_nicheAlerts {cfg : Thresholds} {s : BotState} {t : Trade}
    {mkt : MarketData} {k : String} {a : Alert}
    (h : a ∈ nicheAlerts cfg s t mkt k) :
    a = { kind := .repeatNichePlayer, wallet := t.maker_address,
          key := k } := by
  simp only [nicheAlerts] at h
  split at h
  · simpa using h
  · simp at h

lemma mem_convictionAlerts {cfg : Thresholds} {s : BotState} {t : Trade}
    {k : String} {a : Alert} (h : a ∈ convictionAlerts cfg s t k) :
    a = { kind := .highWinRateTrader, wallet := t.maker_address,
          key := k } := by
  simp only [convictionAlerts] at h
  split at h
  · split at h
    · simpa using h
    · simp at h
  · simp at h

lemma mem_preMoveAlerts {cfg : Thresholds} {s : BotState} {t : Trade}
    {mkt : MarketData} {k : String} {a : Alert}
    (h : a ∈ preMoveAlerts cfg s t mkt k) :
    a = { kind := .preMovePositioning, wallet := t.maker_address,
          key := k } := by
  simp only [preMoveAlerts] at h
  split at h
  · split at h
    · split at h
      · split at h
        · simpa using h
        · simp at h
      · simp at h
    · simp at h
  · simp at h

lemma mem_coordAlerts {cfg : Thresholds} {s : BotState} {t : Trade}
    {mkt : MarketData} {k : String} {a : Alert}
    (h : a ∈ coordAlerts cfg s t mkt k) :
    a = { kind := .coordinatedEntry, wallet := t.maker_address,
          key := k } := by
  simp only [coordAlerts] at h
  split at h
  · split at h
    · simpa using h
    · simp at h
  · simp at h

lemma mem_alertsOf_key {cfg : Thresholds} {now : Int} {s : BotState}
    {t : Trade} {mkt : MarketData} {a : Alert}
    (h : a ∈ alertsOf cfg now s t mkt) : a.key = keyOf t mkt := by
  unfold alertsOf at h
  simp only [List.mem_append] at h
  rcases h with ((((h | h) | h) | h) | h) | h
  · rw [mem_freshWalletAlerts h]
  · rw [mem_unusualSizeAlerts h]
  · rw [mem_nicheAlerts h]
  · rw [mem_convictionAlerts h]
  · rw [mem_preMoveAlerts h]
  · rw [mem_coordAlerts h]

end PolymarketBot

namespace PolymarketBot

/-! ### Characterization of one analyze_trade call -/

lemma analyze_dup {cfg : Thresholds} {now : Int} {s : BotState} {t : Trade}
    {mkt : MarketData} (h : keyOf t mkt ∈ s.sent_alerts) :
    analyze_trade cfg now s t mkt = ([], s) := by
  have h2 : mkAlertKey t.maker_address mkt.condition_id t.timestamp ∈
      s.sent_alerts := h
  simp only [analyze_trade]
  rw [if_pos h2]

lemma stage4_sent_alerts (s : BotState) (t : Trade) (mkt : MarketData) :
    (stage4 s t mkt).sent_alerts = s.sent_alerts := by
  simp [stage4, stage3, stage2]

lemma analyze_eq {cfg : Thresholds} {now : Int} {s : BotState} {t : Trade}
    {mkt : MarketData} (h : keyOf t mkt ∉ s.sent_alerts) :
    analyze_trade cfg now s t mkt =
      (alertsOf cfg now s t mkt,
       { stage4 s t mkt with
         sent_alerts :=
           if alertsOf cfg now s t mkt = [] then s.sent_alerts
           else listInsert (keyOf t mkt) s.sent_alerts }) := by
  have h2 : mkAlertKey t.maker_address mkt.condition_id t.timestamp ∉
      s.sent_alerts := h
  have hfold := @foldl_listInsert_const (alertsOf cfg now s t mkt)
    (keyOf t mkt) (fun a ha => mem_alertsOf_key ha) s.sent_alerts
  simp only [alertsOf, stage4, stage3, stage2, keyOf] at hfold
  simp only [analyze_trade]
  rw [if_neg h2]
  simp only [alertsOf, stage4, stage3, stage2, keyOf]
  simp only [recordWalletHistory_sent_alerts, recordPrice_sent_alerts,
    recordSize_sent_alerts, recordOutcome_sent_alerts]
  rw [hfold]

end PolymarketBot

namespace PolymarketBot

lemma analyze_fst {cfg : Thresholds} {now : Int} {s : BotState} {t : Trade}
    {mkt : MarketData} (h : keyOf t mkt ∉ s.sent_alerts) :
    (analyze_trade cfg now s t mkt).1 = alertsOf cfg now s t mkt := by
  rw [analyze_eq h]

lemma analyze_snd_wallets {cfg : Thresholds} {now : Int} {s : BotState}
    {t : Trade} {mkt : MarketData} (h : keyOf t mkt ∉ s.sent_alerts) :
    (analyze_trade cfg now s t mkt).2.wallets =
      if t.maker_address ∈ s.wallets then s.wallets
      else s.wallets ++ [t.maker_address] := by
  rw [analyze_eq h]
  dsimp only
  simp [stage4, stage3, stage2, recordWalletHistory_wallets]

lemma analyze_snd_wallet_history {cfg : Thresholds} {now : Int}
    {s : BotState} {t : Trade} {mkt : MarketData}
    (h : keyOf t mkt ∉ s.sent_alerts) :
    (analyze_trade cfg now s t mkt).2.wallet_history =
      updFun s.wallet_history t.maker_address
        (s.wallet_history t.maker_address ++ [mkEntry t mkt]) := by
  rw [analyze_eq h]
  dsimp only
  simp [stage4, stage3, stage2, recordWalletHistory_wallet_history]

lemma analyze_snd_wallet_outcomes {cfg : Thresholds} {now : Int}
    {s : BotState} {t : Trade} {mkt : MarketData}
    (h : keyOf t mkt ∉ s.sent_alerts) :
    (analyze_trade cfg now s t mkt).2.wallet_outcomes =
      updFun s.wallet_outcomes t.maker_address
        (s.wallet_outcomes t.maker_address ++ [mkOutcome t mkt]) := by
  rw [analyze_eq h]
  dsimp only
  simp [stage4, stage3, stage2, recordOutcome_wallet_outcomes]

lemma analyze_snd_sent {cfg : Thresholds} {now : Int} {s : BotState}
    {t : Trade} {mkt : MarketData} (h : keyOf t mkt ∉ s.sent_alerts) :
    (analyze_trade cfg now s t mkt).2.sent_alerts =
      if (analyze_trade cfg now s t mkt).1 = [] then s.sent_alerts
      else listInsert (keyOf t mkt) s.sent_alerts := by
  rw [analyze_eq h]

lemma analyze_market_volumes (cfg : Thresholds) (now : Int) (s : BotState)
    (t : Trade) (mkt : MarketData) :
    (analyze_trade cfg now s t mkt).2.market_volumes =
      if keyOf t mkt ∈ s.sent_alerts then s.market_volumes
      else if truthyId mkt.condition_id then
        updFun s.market_volumes (midKey mkt.condition_id)
          (trimWindow 100
            (s.market_volumes (midKey mkt.condition_id) ++ [t.size]))
      else s.market_volumes := by
  by_cases h : keyOf t mkt ∈ s.sent_alerts
  · rw [analyze_dup h, if_pos h]
  · rw [analyze_eq h, if_neg h]
    dsimp only
    simp [stage4, stage3, stage2, recordSize_market_volumes]

lemma analyze_market_prices (cfg : Thresholds) (now : Int) (s : BotState)
    (t : Trade) (mkt : MarketData) :
    (analyze_trade cfg now s t mkt).2.market_prices =
      if keyOf t mkt ∈ s.sent_alerts then s.market_prices
      else if truthyId mkt.condition_id then
        updFun s.market_prices (midKey mkt.condition_id)
          (trimWindow 200
            (s.market_prices (midKey mkt.condition_id) ++
              [{ timestamp := t.timestamp, price := t.price }]))
      else s.market_prices := by
  by_cases h : keyOf t mkt ∈ s.sent_alerts
  · rw [analyze_dup h, if_pos h]
  · rw [analyze_eq h, if_neg h]
    dsimp only
    simp [stage4, stage3, stage2, recordPrice_market_prices]

/-! ### takeLast and trimWindow -/

lemma length_takeLast {α : Type} (n : Nat) (l : List α) :
    (takeLast n l).length = min n l.length := by
  simp only [takeLast, List.length_drop]
  omega

lemma takeLast_nil {α : Type} (n : Nat) : takeLast n ([] : List α) = [] := by
  simp [takeLast]

lemma trimWindow_takeLast {α : Type} (cap : Nat) (l : List α) (x : α) :
    trimWindow cap (takeLast cap l ++ [x]) = takeLast cap (l ++ [x]) := by
  have hlen : (takeLast cap l ++ [x]).length = min cap l.length + 1 := by
    simp [length_takeLast]
  by_cases hc : cap ≤ l.length
  · have hmin : min cap l.length = cap := by omega
    rw [trimWindow, if_pos (by rw [hlen, hmin]; omega)]
    by_cases h0 : cap = 0
    · subst h0
      simp only [takeLast]
      rw [List.drop_eq_nil_of_le (by omega), List.drop_eq_nil_of_le (by simp)]
      rfl
    · have h1 : (1 : Nat) ≤ (takeLast cap l).length := by
        rw [length_takeLast]; omega
      rw [← List.drop_one, List.drop_append_of_le_length h1]
      simp only [takeLast]
      rw [List.drop_drop, List.length_append]
      simp only [List.length_singleton]
      rw [List.drop_append_of_le_length (by omega)]
      congr 2
      omega
  · rw [trimWindow, if_neg (by rw [hlen]; omega)]
    simp only [takeLast]
    have e1 : l.length - cap = 0 := by omega
    have e2 : (l ++ [x]).length - cap = 0 := by simp; omega
    rw [e1, e2, List.drop_zero, List.drop_zero]

end PolymarketBot

namespace PolymarketBot

/-! ### The instrumented run -/

lemma foldl_logStep_fst (cfg : Thresholds) (steps : List ScanStep) :
    ∀ acc : BotState × (String → List ℚ) × (String → List PricePoint),
      (steps.foldl (logStep cfg) acc).1 =
        steps.foldl
          (fun s st => (analyze_trade cfg st.now s st.trade st.market).2)
          acc.1 := by
  induction steps with
  | nil => intro acc; rfl
  | cons st rest ih =>
    intro acc
    simp only [List.foldl_cons]
    exact ih _

lemma runWithLogs_fst (cfg : Thresholds) (steps : List ScanStep) :
    (runWithLogs cfg steps).1 = runBot cfg steps := by
  unfold runWithLogs runBot
  exact foldl_logStep_fst cfg steps _

lemma foldl_logStep_invariant (cfg : Thresholds) (steps : List ScanStep) :
    ∀ acc : BotState × (String → List ℚ) × (String → List PricePoint),
      (∀ m, acc.1.market_volumes m = takeLast 100 (acc.2.1 m)) →
      (∀ m, acc.1.market_prices m = takeLast 200 (acc.2.2 m)) →
      (∀ m, (steps.foldl (logStep cfg) acc).1.market_volumes m =
          takeLast 100 ((steps.foldl (logStep cfg) acc).2.1 m)) ∧
      (∀ m, (steps.foldl (logStep cfg) acc).1.market_prices m =
          takeLast 200 ((steps.foldl (logStep cfg) acc).2.2 m)) := by
  induction steps with
  | nil => intro acc h1 h2; exact ⟨h1, h2⟩
  | cons st rest ih =>
    intro acc h1 h2
    simp only [List.foldl_cons]
    apply ih
    · intro m
      show (analyze_trade cfg st.now acc.1 st.trade st.market).2.market_volumes
          m = takeLast 100 (acc.2.1 m ++ sizeAppends acc.1 st m)
      rw [analyze_market_volumes]
      unfold sizeAppends
      by_cases hdup : keyOf st.trade st.market ∈ acc.1.sent_alerts
      · rw [if_pos hdup, if_pos hdup, List.append_nil]
        exact h1 m
      · rw [if_neg hdup, if_neg hdup]
        by_cases htr : truthyId st.market.condition_id
        · by_cases hm : midKey st.market.condition_id = m
          · rw [if_pos htr, if_pos ⟨htr, hm⟩]
            unfold updFun
            rw [if_pos hm.symm, hm, h1 m]
            exact trimWindow_takeLast 100 (acc.2.1 m) st.trade.size
          · rw [if_pos htr, if_neg (by
              intro hand
              exact hm hand.2), List.append_nil]
            unfold updFun
            rw [if_neg (fun e => hm e.symm)]
            exact h1 m
        · rw [if_neg htr, if_neg (by
            intro hand
            exact htr hand.1), List.append_nil]
          exact h1 m
    · intro m
      show (analyze_trade cfg st.now acc.1 st.trade st.market).2.market_prices
          m = takeLast 200 (acc.2.2 m ++ priceAppends acc.1 st m)
      rw [analyze_market_prices]
      unfold priceAppends
      by_cases hdup : keyOf st.trade st.market ∈ acc.1.sent_alerts
      · rw [if_pos hdup, if_pos hdup, List.append_nil]
        exact h2 m
      · rw [if_neg hdup, if_neg hdup]
        by_cases htr : truthyId st.market.condition_id
        · by_cases hm : midKey st.market.condition_id = m
          · rw [if_pos htr, if_pos ⟨htr, hm⟩]
            unfold updFun
            rw [if_pos hm.symm, hm, h2 m]
            exact trimWindow_takeLast 200 (acc.2.2 m) _
          · rw [if_pos htr, if_neg (by
              intro hand
              exact hm hand.2), List.append_nil]
            unfold updFun
            rw [if_neg (fun e => hm e.symm)]
            exact h2 m
        · rw [if_neg htr, if_neg (by
            intro hand
            exact htr hand.1), List.append_nil]
          exact h2 m

end PolymarketBot

namespace PolymarketBot

/-- C2: at every point of any processed trade sequence (any prefix is
itself such a sequence), each market size window is exactly the last 100
appended sizes in arrival order and each price window exactly the last 200
appended price points, oldest evicted first; hence their lengths are
bounded by 100 and 200. -/
theorem window_bound_fifo (cfg : Thresholds) (steps : List ScanStep)
    (m : String) :
    (runWithLogs cfg steps).1 = runBot cfg steps ∧
    (runBot cfg steps).market_volumes m =
      takeLast 100 ((runWithLogs cfg steps).2.1 m) ∧
    (runBot cfg steps).market_prices m =
      takeLast 200 ((runWithLogs cfg steps).2.2 m) ∧
    ((runBot cfg steps).market_volumes m).length ≤ 100 ∧
    ((runBot cfg steps).market_prices m).length ≤ 200 := by
  have hproj := runWithLogs_fst cfg steps
  have hinv := foldl_logStep_invariant cfg steps
    (initState, fun _ => [], fun _ => [])
    (fun _ => by simp [initState, takeLast_nil])
    (fun _ => by simp [initState, takeLast_nil])
  have hv : (runWithLogs cfg steps).1.market_volumes m =
      takeLast 100 ((runWithLogs cfg steps).2.1 m) := hinv.1 m
  have hp : (runWithLogs cfg steps).1.market_prices m =
      takeLast 200 ((runWithLogs cfg steps).2.2 m) := hinv.2 m
  refine ⟨hproj, ?_, ?_, ?_, ?_⟩
  · rw [← hproj]; exact hv
  · rw [← hproj]; exact hp
  · rw [← hproj, hv, length_takeLast]; omega
  · rw [← hproj, hp, length_takeLast]; omega


lemma getSet_thresholds (th : Thresholds) :
    ∀ p ∈ thresholdNames, ∀ v : ℚ,
      getThresholdByName (setThresholdByName th p v) p = some v ∧
      ∀ q, q ≠ p →
        getThresholdByName (setThresholdByName th p v) q =
          getThresholdByName th q := by
  intro p hp v
  unfold thresholdNames at hp
  rcases List.mem_cons.mp hp with rfl | hp
  · have hset : setThresholdByName th "fresh_wallet_days" v =
        { th with fresh_wallet_days := v } := by
      unfold setThresholdByName
      rw [if_pos rfl]
    refine ⟨?_, ?_⟩
    · rw [hset]
      unfold getThresholdByName
      rw [if_pos rfl]
    · intro q hq
      rw [hset]
      unfold getThresholdByName
      by_cases hc : q = "fresh_wallet_days"
      · exact absurd hc hq
      · rw [if_neg hc, if_neg hc]
  rcases List.mem_cons.mp hp with rfl | hp
  · have hset : setThresholdByName th "fresh_wallet_min_value" v =
        { th with fresh_wallet_min_value := v } := by
      unfold setThresholdByName
      rw [if_neg (by decide : ¬ (("fresh_wallet_min_value" : String) = "fresh_wallet_days"))]
      rw [if_pos rfl]
    refine ⟨?_, ?_⟩
    · rw [hset]
      unfold getThresholdByName
      rw [if_neg (by decide : ¬ (("fresh_wallet_min_value" : String) = "fresh_wallet_days"))]
      rw [if_pos rfl]
    · intro q hq
      rw [hset]
      unfold getThresholdByName
      by_cases hc : q = "fresh_wallet_min_value"
      · exact absurd hc hq
      · rw [if_neg hc, if_neg hc]
  rcases List.mem_cons.mp hp with rfl | hp
  · have hset : setThresholdByName th "unusual_size_multiplier" v =
        { th with unusual_size_multiplier := v } := by
      unfold setThresholdByName
      rw [if_neg (by decide : ¬ (("unusual_size_multiplier" : String) = "fresh_wallet_days"))]
      rw [if_neg (by decide : ¬ (("unusual_size_multiplier" : String) = "fresh_wallet_min_value"))]
      rw [if_pos rfl]
    refine ⟨?_, ?_⟩
    · rw [hset]
      unfold getThresholdByName
      rw [if_neg (by decide : ¬ (("unusual_size_multiplier" : String) = "fresh_wallet_days"))]
      rw [if_neg (by decide : ¬ (("unusual_size_multiplier" : String) = "fresh_wallet_min_value"))]
      rw [if_pos rfl]
    · intro q hq
      rw [hset]
      unfold getThresholdByName
      by_cases hc : q = "unusual_size_multiplier"
      · exact absurd hc hq
      · rw [if_neg hc, if_neg hc]
  rcases List.mem_cons.mp hp with rfl | hp
  · have hset : setThresholdByName th "niche_volume_max" v =
        { th with niche_volume_max := v } := by
      unfold setThresholdByName
      rw [if_neg (by decide : ¬ (("niche_volume_max" : String) = "fresh_wallet_days"))]
      rw [if_neg (by decide : ¬ (("niche_volume_max" : String) = "fresh_wallet_min_value"))]
      rw [if_neg (by decide : ¬ (("niche_volume_max" : String) = "unusual_size_multiplier"))]
      rw [if_pos rfl]
    refine ⟨?_, ?_⟩
    · rw [hset]
      unfold getThresholdByName
      rw [if_neg (by decide : ¬ (("niche_volume_max" : String) = "fresh_wallet_days"))]
      rw [if_neg (by decide : ¬ (("niche_volume_max" : String) = "fresh_wallet_min_value"))]
      rw [if_neg (by decide : ¬ (("niche_volume_max" : String) = "unusual_size_multiplier"))]
      rw [if_pos rfl]
    · intro q hq
      rw [hset]
      unfold getThresholdByName
      by_cases hc : q = "niche_volume_max"
      · exact absurd hc hq
      · rw [if_neg hc, if_neg hc]
  rcases List.mem_cons.mp hp with rfl | hp
  · have hset : setThresholdByName th "niche_trades_min" v =
        { th with niche_trades_min := v } := by
      unfold setThresholdByName
      rw [if_neg (by decide : ¬ (("niche_trades_min" : String) = "fresh_wallet_days"))]
      rw [if_neg (by decide : ¬ (("niche_trades_min" : String) = "fresh_wallet_min_value"))]
      rw [if_neg (by decide : ¬ (("niche_trades_min" : String) = "unusual_size_multiplier"))]
      rw [if_neg (by decide : ¬ (("niche_trades_min" : String) = "niche_volume_max"))]
      rw [if_pos rfl]
    refine ⟨?_, ?_⟩
    · rw [hset]
      unfold getThresholdByName
      rw [if_neg (by decide : ¬ (("niche_trades_min" : String) = "fresh_wallet_days"))]
      rw [if_neg (by decide : ¬ (("niche_trades_min" : String) = "fresh_wallet_min_value"))]
      rw [if_neg (by decide : ¬ (("niche_trades_min" : String) = "unusual_size_multiplier"))]
      rw [if_neg (by decide : ¬ (("niche_trades_min" : String) = "niche_volume_max"))]
      rw [if_pos rfl]
    · intro q hq
      rw [hset]
      unfold getThresholdByName
      by_cases hc : q = "niche_trades_min"
      · exact absurd hc hq
      · rw [if_neg hc, if_neg hc]
  rcases List.mem_cons.mp hp with rfl | hp
  · have hset : setThresholdByName th "win_rate_conviction_min" v =
        { th with win_rate_conviction_min := v } := by
      unfold setThresholdByName
      rw [if_neg (by decide : ¬ (("win_rate_conviction_min" : String) = "fresh_wallet_days"))]
      rw [if_neg (by decide : ¬ (("win_rate_conviction_min" : String) = "fresh_wallet_min_value"))]
      rw [if_neg (by decide : ¬ (("win_rate_conviction_min" : String) = "unusual_size_multiplier"))]
      rw [if_neg (by decide : ¬ (("win_rate_conviction_min" : String) = "niche_volume_max"))]
      rw [if_neg (by decide : ¬ (("win_rate_conviction_min" : String) = "niche_trades_min"))]
      rw [if_pos rfl]
    refine ⟨?_, ?_⟩
    · rw [hset]
      unfold getThresholdByName
      rw [if_neg (by decide : ¬ (("win_rate_conviction_min" : String) = "fresh_wallet_days"))]
      rw [if_neg (by decide : ¬ (("win_rate_conviction_min" : String) = "fresh_wallet_min_value"))]
      rw [if_neg (by decide : ¬ (("win_rate_conviction_min" : String) = "unusual_size_multiplier"))]
      rw [if_neg (by decide : ¬ (("win_rate_conviction_min" : String) = "niche_volume_max"))]
      rw [if_neg (by decide : ¬ (("win_rate_conviction_min" : String) = "niche_trades_min"))]
      rw [if_pos rfl]
    · intro q hq
      rw [hset]
      unfold getThresholdByName
      by_cases hc : q = "win_rate_conviction_min"
      · exact absurd hc hq
      · rw [if_neg hc, if_neg hc]
  rcases List.mem_cons.mp hp with rfl | hp
  · have hset : setThresholdByName th "win_rate_min_value" v =
        { th with win_rate_min_value := v } := by
      unfold setThresholdByName
      rw [if_neg (by decide : ¬ (("win_rate_min_value" : String) = "fresh_wallet_days"))]
      rw [if_neg (by decide : ¬ (("win_rate_min_value" : String) = "fresh_wallet_min_value"))]
      rw [if_neg (by decide : ¬ (("win_rate_min_value" : String) = "unusual_size_multiplier"))]
      rw [if_neg (by decide : ¬ (("win_rate_min_value" : String) = "niche_volume_max"))]
      rw [if_neg (by decide : ¬ (("win_rate_min_value" : String) = "niche_trades_min"))]
      rw [if_neg (by decide : ¬ (("win_rate_min_value" : String) = "win_rate_conviction_min"))]
      rw [if_pos rfl]
    refine ⟨?_, ?_⟩
    · rw [hset]
      unfold getThresholdByName
      rw [if_neg (by decide : ¬ (("win_rate_min_value" : String) = "fresh_wallet_days"))]
      rw [if_neg (by decide : ¬ (("win_rate_min_value" : String) = "fresh_wallet_min_value"))]
      rw [if_neg (by decide : ¬ (("win_rate_min_value" : String) = "unusual_size_multiplier"))]
      rw [if_neg (by decide : ¬ (("win_rate_min_value" : String) = "niche_volume_max"))]
      rw [if_neg (by decide : ¬ (("win_rate_min_value" : String) = "niche_trades_min"))]
      rw [if_neg (by decide : ¬ (("win_rate_min_value" : String) = "win_rate_conviction_min"))]
      rw [if_pos rfl]
    · intro q hq
      rw [hset]
      unfold getThresholdByName
      by_cases hc : q = "win_rate_min_value"
      · exact absurd hc hq
      · rw [if_neg hc, if_neg hc]
  rcases List.mem_cons.mp hp with rfl | hp
  · have hset : setThresholdByName th "pre_move_min_value" v =
        { th with pre_move_min_value := v } := by
      unfold setThresholdByName
      rw [if_neg (by decide : ¬ (("pre_move_min_value" : String) = "fresh_wallet_days"))]
      rw [if_neg (by decide : ¬ (("pre_move_min_value" : String) = "fresh_wallet_min_value"))]
      rw [if_neg (by decide : ¬ (("pre_move_min_value" : String) = "unusual_size_multiplier"))]
      rw [if_neg (by decide : ¬ (("pre_move_min_value" : String) = "niche_volume_max"))]
      rw [if_neg (by decide : ¬ (("pre_move_min_value" : String) = "niche_trades_min"))]
      rw [if_neg (by decide : ¬ (("pre_move_min_value" : String) = "win_rate_conviction_min"))]
      rw [if_neg (by decide : ¬ (("pre_move_min_value" : String) = "win_rate_min_value"))]
      rw [if_pos rfl]
    refine ⟨?_, ?_⟩
    · rw [hset]
      unfold getThresholdByName
      rw [if_neg (by decide : ¬ (("pre_move_min_value" : String) = "fresh_wallet_days"))]
      rw [if_neg (by decide : ¬ (("pre_move_min_value" : String) = "fresh_wallet_min_value"))]
      rw [if_neg (by decide : ¬ (("pre_move_min_value" : String) = "unusual_size_multiplier"))]
      rw [if_neg (by decide : ¬ (("pre_move_min_value" : String) = "niche_volume_max"))]
      rw [if_neg (by decide : ¬ (("pre_move_min_value" : String) = "niche_trades_min"))]
      rw [if_neg (by decide : ¬ (("pre_move_min_value" : String) = "win_rate_conviction_min"))]
      rw [if_neg (by decide : ¬ (("pre_move_min_value" : String) = "win_rate_min_value"))]
      rw [if_pos rfl]
    · intro q hq
      rw [hset]
      unfold getThresholdByName
      by_cases hc : q = "pre_move_min_value"
      · exact absurd hc hq
      · rw [if_neg hc, if_neg hc]
  rcases List.mem_cons.mp hp with rfl | hp
  · have hset : setThresholdByName th "pre_move_change_pct" v =
        { th with pre_move_change_pct := v } := by
      unfold setThresholdByName
      rw [if_neg (by decide : ¬ (("pre_move_change_pct" : String) = "fresh_wallet_days"))]
      rw [if_neg (by decide : ¬ (("pre_move_change_pct" : String) = "fresh_wallet_min_value"))]
      rw [if_neg (by decide : ¬ (("pre_move_change_pct" : String) = "unusual_size_multiplier"))]
      rw [if_neg (by decide : ¬ (("pre_move_change_pct" : String) = "niche_volume_max"))]
      rw [if_neg (by decide : ¬ (("pre_move_change_pct" : String) = "niche_trades_min"))]
      rw [if_neg (by decide : ¬ (("pre_move_change_pct" : String) = "win_rate_conviction_min"))]
      rw [if_neg (by decide : ¬ (("pre_move_change_pct" : String) = "win_rate_min_value"))]
      rw [if_neg (by decide : ¬ (("pre_move_change_pct" : String) = "pre_move_min_value"))]
      rw [if_pos rfl]
    refine ⟨?_, ?_⟩
    · rw [hset]
      unfold getThresholdByName
      rw [if_neg (by decide : ¬ (("pre_move_change_pct" : String) = "fresh_wallet_days"))]
      rw [if_neg (by decide : ¬ (("pre_move_change_pct" : String) = "fresh_wallet_min_value"))]
      rw [if_neg (by decide : ¬ (("pre_move_change_pct" : String) = "unusual_size_multiplier"))]
      rw [if_neg (by decide : ¬ (("pre_move_change_pct" : String) = "niche_volume_max"))]
      rw [if_neg (by decide : ¬ (("pre_move_change_pct" : String) = "niche_trades_min"))]
      rw [if_neg (by decide : ¬ (("pre_move_change_pct" : String) = "win_rate_conviction_min"))]
      rw [if_neg (by decide : ¬ (("pre_move_change_pct" : String) = "win_rate_min_value"))]
      rw [if_neg (by decide : ¬ (("pre_move_change_pct" : String) = "pre_move_min_value"))]
      rw [if_pos rfl]
    · intro q hq
      rw [hset]
      unfold getThresholdByName
      by_cases hc : q = "pre_move_change_pct"
      · exact absurd hc hq
      · rw [if_neg hc, if_neg hc]
  rcases List.mem_cons.mp hp with rfl | hp
  · have hset : setThresholdByName th "coordinated_min_value" v =
        { th with coordinated_min_value := v } := by
      unfold setThresholdByName
      rw [if_neg (by decide : ¬ (("coordinated_min_value" : String) = "fresh_wallet_days"))]
      rw [if_neg (by decide : ¬ (("coordinated_min_value" : String) = "fresh_wallet_min_value"))]
      rw [if_neg (by decide : ¬ (("coordinated_min_value" : String) = "unusual_size_multiplier"))]
      rw [if_neg (by decide : ¬ (("coordinated_min_value" : String) = "niche_volume_max"))]
      rw [if_neg (by decide : ¬ (("coordinated_min_value" : String) = "niche_trades_min"))]
      rw [if_neg (by decide : ¬ (("coordinated_min_value" : String) = "win_rate_conviction_min"))]
      rw [if_neg (by decide : ¬ (("coordinated_min_value" : String) = "win_rate_min_value"))]
      rw [if_neg (by decide : ¬ (("coordinated_min_value" : String) = "pre_move_min_value"))]
      rw [if_neg (by decide : ¬ (("coordinated_min_value" : String) = "pre_move_change_pct"))]
      rw [if_pos rfl]
    refine ⟨?_, ?_⟩
    · rw [hset]
      unfold getThresholdByName
      rw [if_neg (by decide : ¬ (("coordinated_min_value" : String) = "fresh_wallet_days"))]
      rw [if_neg (by decide : ¬ (("coordinated_min_value" : String) = "fresh_wallet_min_value"))]
      rw [if_neg (by decide : ¬ (("coordinated_min_value" : String) = "unusual_size_multiplier"))]
      rw [if_neg (by decide : ¬ (("coordinated_min_value" : String) = "niche_volume_max"))]
      rw [if_neg (by decide : ¬ (("coordinated_min_value" : String) = "niche_trades_min"))]
      rw [if_neg (by decide : ¬ (("coordinated_min_value" : String) = "win_rate_conviction_min"))]
      rw [if_neg (by decide : ¬ (("coordinated_min_value" : String) = "win_rate_min_value"))]
      rw [if_neg (by decide : ¬ (("coordinated_min_value" : String) = "pre_move_min_value"))]
      rw [if_neg (by decide : ¬ (("coordinated_min_value" : String) = "pre_move_change_pct"))]
      rw [if_pos rfl]
    · intro q hq
      rw [hset]
      unfold getThresholdByName
      by_cases hc : q = "coordinated_min_value"
      · exact absurd hc hq
      · rw [if_neg hc, if_neg hc]
  rcases List.mem_cons.mp hp with rfl | hp
  · have hset : setThresholdByName th "coordinated_min_wallets" v =
        { th with coordinated_min_wallets := v } := by
      unfold setThresholdByName
      rw [if_neg (by decide : ¬ (("coordinated_min_wallets" : String) = "fresh_wallet_days"))]
      rw [if_neg (by decide : ¬ (("coordinated_min_wallets" : String) = "fresh_wallet_min_value"))]
      rw [if_neg (by decide : ¬ (("coordinated_min_wallets" : String) = "unusual_size_multiplier"))]
      rw [if_neg (by decide : ¬ (("coordinated_min_wallets" : String) = "niche_volume_max"))]
      rw [if_neg (by decide : ¬ (("coordinated_min_wallets" : String) = "niche_trades_min"))]
      rw [if_neg (by decide : ¬ (("coordinated_min_wallets" : String) = "win_rate_conviction_min"))]
      rw [if_neg (by decide : ¬ (("coordinated_min_wallets" : String) = "win_rate_min_value"))]
      rw [if_neg (by decide : ¬ (("coordinated_min_wallets" : String) = "pre_move_min_value"))]
      rw [if_neg (by decide : ¬ (("coordinated_min_wallets" : String) = "pre_move_change_pct"))]
      rw [if_neg (by decide : ¬ (("coordinated_min_wallets" : String) = "coordinated_min_value"))]
      rw [if_pos rfl]
    refine ⟨?_, ?_⟩
    · rw [hset]
      unfold getThresholdByName
      rw [if_neg (by decide : ¬ (("coordinated_min_wallets" : String) = "fresh_wallet_days"))]
      rw [if_neg (by decide : ¬ (("coordinated_min_wallets" : String) = "fresh_wallet_min_value"))]
      rw [if_neg (by decide : ¬ (("coordinated_min_wallets" : String) = "unusual_size_multiplier"))]
      rw [if_neg (by decide : ¬ (("coordinated_min_wallets" : String) = "niche_volume_max"))]
      rw [if_neg (by decide : ¬ (("coordinated_min_wallets" : String) = "niche_trades_min"))]
      rw [if_neg (by decide : ¬ (("coordinated_min_wallets" : String) = "win_rate_conviction_min"))]
      rw [if_neg (by decide : ¬ (("coordinated_min_wallets" : String) = "win_rate_min_value"))]
      rw [if_neg (by decide : ¬ (("coordinated_min_wallets" : String) = "pre_move_min_value"))]
      rw [if_neg (by decide : ¬ (("coordinated_min_wallets" : String) = "pre_move_change_pct"))]
      rw [if_neg (by decide : ¬ (("coordinated_min_wallets" : String) = "coordinated_min_value"))]
      rw [if_pos rfl]
    · intro q hq
      rw [hset]
      unfold getThresholdByName
      by_cases hc : q = "coordinated_min_wallets"
      · exact absurd hc hq
      · rw [if_neg hc, if_neg hc]
  exact absurd hp (List.not_mem_nil p)

/-- C9: a configuration update with a non-numeric value or an unknown
parameter name is rejected and leaves every threshold unchanged; an update
with a known name and numeric value succeeds and changes exactly that
parameter. -/
theorem set_threshold_validation (th : Thresholds) (param : String)
    (parsed : Option ℚ) :
    (parsed = none → processSet th param parsed = (.invalidValue, th)) ∧
    (∀ v, parsed = some v → param ∉ thresholdNames →
      processSet th param parsed = (.unknownParam, th)) ∧
    (∀ v, parsed = some v → param ∈ thresholdNames →
      (processSet th param parsed).1 = .okSet ∧
      getThresholdByName (processSet th param parsed).2 param = some v ∧
      ∀ q, q ≠ param →
        getThresholdByName (processSet th param parsed).2 q =
          getThresholdByName th q) := by
  refine ⟨?_, ?_, ?_⟩
  · intro h; subst h; rfl
  · intro v h hmem; subst h
    simp only [processSet]
    rw [if_neg hmem]
  · intro v h hmem; subst h
    have hres : processSet th param (some v) =
        (.okSet, setThresholdByName th param v) := by
      simp only [processSet]
      rw [if_pos hmem]
    rw [hres]
    obtain ⟨h1, h2⟩ := getSet_thresholds th param hmem v
    exact ⟨rfl, h1, h2⟩

/-- Witness for C9 at concrete inputs: the unknown name volume is rejected
without change, and setting fresh_wallet_days to 5 succeeds, stores 5, and
leaves niche_volume_max unchanged. -/
theorem set_threshold_validation_witness :
    ("volume" ∉ thresholdNames ∧
      processSet defaultThresholds "volume" (some 5) =
        (.unknownParam, defaultThresholds)) ∧
    ((processSet defaultThresholds "fresh_wallet_days" (some 5)).1 =
        .okSet ∧
      getThresholdByName
        (processSet defaultThresholds "fresh_wallet_days" (some 5)).2
        "fresh_wallet_days" = some 5 ∧
      getThresholdByName
        (processSet defaultThresholds "fresh_wallet_days" (some 5)).2
        "niche_volume_max" =
        getThresholdByName defaultThresholds "niche_volume_max") := by
  constructor
  · exact ⟨by decide,
      (set_threshold_validation defaultThresholds "volume" (some 5)).2.1 5
        rfl (by decide)⟩
  · obtain ⟨h1, h2, h3⟩ :=
      (set_threshold_validation defaultThresholds "fresh_wallet_days"
        (some 5)).2.2 5 rfl (by decide)
    exact ⟨h1, h2, h3 _ (by decide)⟩

end PolymarketBot

namespace PolymarketBot

/-! ### When each rule is silent, and when it fires -/

lemma freshWalletAlerts_eq_nil_of_value {cfg : Thresholds} {now : Int}
    {s : BotState} {t : Trade} {k : String}
    (h : ¬ t.size * t.price > cfg.fresh_wallet_min_value) :
    freshWalletAlerts cfg now s t k = [] := by
  unfold freshWalletAlerts
  cases getWalletAge s now t.maker_address with
  | none => rfl
  | some age =>
      dsimp only
      rw [if_neg (fun hc => h hc.2)]

lemma freshWalletAlerts_ne_nil_iff {cfg : Thresholds} {now : Int}
    {s : BotState} {t : Trade} {k : String} :
    freshWalletAlerts cfg now s t k ≠ [] ↔
      ∃ age, getWalletAge s now t.maker_address = some age ∧
        (age : ℚ) < cfg.fresh_wallet_days ∧
        t.size * t.price > cfg.fresh_wallet_min_value := by
  unfold freshWalletAlerts
  cases hga : getWalletAge s now t.maker_address with
  | none => simp
  | some age =>
      dsimp only
      split_ifs with hc
      · constructor
        · intro _
          exact ⟨age, rfl, hc.1, hc.2⟩
        · intro _
          simp
      · constructor
        · intro hfalse
          exact absurd rfl hfalse
        · rintro ⟨a, ha, h1, h2⟩
          cases Option.some.inj ha
          exact absurd ⟨h1, h2⟩ hc

lemma unusualSizeAlerts_eq_nil_of_short {cfg : Thresholds} {s : BotState}
    {t : Trade} {mkt : MarketData} {k : String}
    (h : ¬ 10 < (s.market_volumes (midKey mkt.condition_id)).length) :
    unusualSizeAlerts cfg s t mkt k = [] := by
  simp only [unusualSizeAlerts]
  split_ifs with h1 h2
  · exact absurd h2.1 h
  · rfl
  · rfl

lemma unusualSizeAlerts_ne_nil_iff {cfg : Thresholds} {s : BotState}
    {t : Trade} {mkt : MarketData} {k : String} :
    unusualSizeAlerts cfg s t mkt k ≠ [] ↔
      truthyId mkt.condition_id = true ∧
      10 < (s.market_volumes (midKey mkt.condition_id)).length ∧
      t.size > ((s.market_volumes (midKey mkt.condition_id)).sum /
          ((s.market_volumes (midKey mkt.condition_id)).length : ℚ)) *
        cfg.unusual_size_multiplier := by
  simp only [unusualSizeAlerts]
  split_ifs with h1 h2 <;> simp_all

lemma nicheAlerts_eq_nil_of_count {cfg : Thresholds} {s : BotState}
    {t : Trade} {mkt : MarketData} {k : String}
    (h : ¬ ((((s.wallet_history t.maker_address).filter
        (fun e => mkt.question == some e.market)).length : ℚ) >
          cfg.niche_trades_min)) :
    nicheAlerts cfg s t mkt k = [] := by
  simp only [nicheAlerts]
  rw [if_neg (fun hc => h hc.1)]

lemma convictionAlerts_eq_nil_of_short {cfg : Thresholds} {s : BotState}
    {t : Trade} {k : String}
    (h : ¬ 10 ≤ (s.wallet_outcomes t.maker_address).length) :
    convictionAlerts cfg s t k = [] := by
  simp only [convictionAlerts]
  rw [if_neg h]

lemma preMoveAlerts_eq_nil_of_value {cfg : Thresholds} {s : BotState}
    {t : Trade} {mkt : MarketData} {k : String}
    (h : ¬ t.size * t.price > cfg.pre_move_min_value) :
    preMoveAlerts cfg s t mkt k = [] := by
  simp only [preMoveAlerts]
  rw [if_neg (fun hc => h hc.2)]

lemma preMoveAlerts_eq_nil_of_short {cfg : Thresholds} {s : BotState}
    {t : Trade} {mkt : MarketData} {k : String}
    (h : ¬ 10 < (s.market_prices (midKey mkt.condition_id)).length) :
    preMoveAlerts cfg s t mkt k = [] := by
  simp only [preMoveAlerts]
  split_ifs <;> first
    | rfl
    | (exact absurd (by assumption) h)

lemma coordAlerts_eq_nil_of_value {cfg : Thresholds} {s : BotState}
    {t : Trade} {mkt : MarketData} {k : String}
    (h : ¬ t.size * t.price > cfg.coordinated_min_value) :
    coordAlerts cfg s t mkt k = [] := by
  simp only [coordAlerts]
  rw [if_neg (fun hc => h hc.2)]

end PolymarketBot

namespace PolymarketBot

lemma preMoveAlerts_ne_nil_iff {cfg : Thresholds} {s : BotState} {t : Trade}
    {mkt : MarketData} {k : String} :
    preMoveAlerts cfg s t mkt k ≠ [] ↔
      (truthyId mkt.condition_id = true ∧
       t.size * t.price > cfg.pre_move_min_value) ∧
      10 < (s.market_prices (midKey mkt.condition_id)).length ∧
      5 ≤ ((s.market_prices (midKey mkt.condition_id)).filter
          (fun p => decide (t.timestamp - p.timestamp < 1800))).length ∧
      |t.price - ((((s.market_prices (midKey mkt.condition_id)).filter
          (fun p => decide (t.timestamp - p.timestamp < 1800))).head?.map
            (fun p => p.price)).getD 0)| > cfg.pre_move_change_pct := by
  simp only [preMoveAlerts]
  split_ifs with h1 h2 h3 h4 <;> simp_all

/-- Which alert kinds a non-duplicate call emits: exactly the kinds of the
rules whose output list is nonempty. -/
lemma kind_mem_alertsOf {cfg : Thresholds} {now : Int} {s : BotState}
    {t : Trade} {mkt : MarketData} {kd : AlertKind} :
    kd ∈ (alertsOf cfg now s t mkt).map Alert.kind ↔
      (kd = .freshWalletLargeBet ∧
        freshWalletAlerts cfg now (stage2 s t mkt) t (keyOf t mkt) ≠ []) ∨
      (kd = .unusualSize ∧
        unusualSizeAlerts cfg (stage2 s t mkt) t mkt (keyOf t mkt) ≠ []) ∨
      (kd = .repeatNichePlayer ∧
        nicheAlerts cfg (stage3 s t mkt) t mkt (keyOf t mkt) ≠ []) ∨
      (kd = .highWinRateTrader ∧
        convictionAlerts cfg (stage4 s t mkt) t (keyOf t mkt) ≠ []) ∨
      (kd = .preMovePositioning ∧
        preMoveAlerts cfg (stage4 s t mkt) t mkt (keyOf t mkt) ≠ []) ∨
      (kd = .coordinatedEntry ∧
        coordAlerts cfg (stage4 s t mkt) t mkt (keyOf t mkt) ≠ []) := by
  constructor
  · intro h
    rw [List.mem_map] at h
    obtain ⟨a, ha, hk⟩ := h
    unfold alertsOf at ha
    simp only [List.mem_append] at ha
    rcases ha with ((((ha | ha) | ha) | ha) | ha) | ha
    · exact Or.inl ⟨by rw [← hk, mem_freshWalletAlerts ha],
        List.ne_nil_of_mem ha⟩
    · exact Or.inr (Or.inl ⟨by rw [← hk, mem_unusualSizeAlerts ha],
        List.ne_nil_of_mem ha⟩)
    · exact Or.inr (Or.inr (Or.inl ⟨by rw [← hk, mem_nicheAlerts ha],
        List.ne_nil_of_mem ha⟩))
    · exact Or.inr (Or.inr (Or.inr (Or.inl
        ⟨by rw [← hk, mem_convictionAlerts ha], List.ne_nil_of_mem ha⟩)))
    · exact Or.inr (Or.inr (Or.inr (Or.inr (Or.inl
        ⟨by rw [← hk, mem_preMoveAlerts ha], List.ne_nil_of_mem ha⟩))))
    · exact Or.inr (Or.inr (Or.inr (Or.inr (Or.inr
        ⟨by rw [← hk, mem_coordAlerts ha], List.ne_nil_of_mem ha⟩))))
  · intro h
    rw [List.mem_map]
    unfold alertsOf
    rcases h with ⟨rfl, hne⟩ | ⟨rfl, hne⟩ | ⟨rfl, hne⟩ | ⟨rfl, hne⟩ |
      ⟨rfl, hne⟩ | ⟨rfl, hne⟩ <;>
      obtain ⟨a, ha⟩ := List.exists_mem_of_ne_nil _ hne
    · refine ⟨a, by simp [List.mem_append, ha], ?_⟩
      rw [mem_freshWalletAlerts ha]
    · refine ⟨a, by simp [List.mem_append, ha], ?_⟩
      rw [mem_unusualSizeAlerts ha]
    · refine ⟨a, by simp [List.mem_append, ha], ?_⟩
      rw [mem_nicheAlerts ha]
    · refine ⟨a, by simp [List.mem_append, ha], ?_⟩
      rw [mem_convictionAlerts ha]
    · refine ⟨a, by simp [List.mem_append, ha], ?_⟩
      rw [mem_preMoveAlerts ha]
    · refine ⟨a, by simp [List.mem_append, ha], ?_⟩
      rw [mem_coordAlerts ha]

end PolymarketBot

namespace PolymarketBot

/-- C5: a trade on a market whose size window holds exactly ten prior
sizes never fires Unusual Size, whatever its size; in general the rule
fires exactly when the pre-append window (the current trade excluded from
its own mean) has more than ten entries and the size exceeds the window
mean times the multiplier. -/
theorem unusual_size_warm_window (cfg : Thresholds) (now : Int)
    (s : BotState) (t : Trade) (mkt : MarketData)
    (h : keyOf t mkt ∉ s.sent_alerts) :
    ((s.market_volumes (midKey mkt.condition_id)).length = 10 →
      AlertKind.unusualSize ∉
        ((analyze_trade cfg now s t mkt).1.map Alert.kind)) ∧
    (AlertKind.unusualSize ∈
        ((analyze_trade cfg now s t mkt).1.map Alert.kind) ↔
      truthyId mkt.condition_id = true ∧
      10 < (s.market_volumes (midKey mkt.condition_id)).length ∧
      t.size > ((s.market_volumes (midKey mkt.condition_id)).sum /
          ((s.market_volumes (midKey mkt.condition_id)).length : ℚ)) *
        cfg.unusual_size_multiplier) := by
  have hs2 : (stage2 s t mkt).market_volumes = s.market_volumes := by
    simp [stage2]
  have hiff : AlertKind.unusualSize ∈
      ((analyze_trade cfg now s t mkt).1.map Alert.kind) ↔
      truthyId mkt.condition_id = true ∧
      10 < (s.market_volumes (midKey mkt.condition_id)).length ∧
      t.size > ((s.market_volumes (midKey mkt.condition_id)).sum /
          ((s.market_volumes (midKey mkt.condition_id)).length : ℚ)) *
        cfg.unusual_size_multiplier := by
    rw [analyze_fst h, kind_mem_alertsOf, unusualSizeAlerts_ne_nil_iff, hs2]
    constructor
    · rintro (⟨h1, _⟩ | ⟨_, h2⟩ | ⟨h1, _⟩ | ⟨h1, _⟩ | ⟨h1, _⟩ | ⟨h1, _⟩)
      · exact absurd h1 (by decide)
      · exact h2
      · exact absurd h1 (by decide)
      · exact absurd h1 (by decide)
      · exact absurd h1 (by decide)
      · exact absurd h1 (by decide)
    · intro hc
      exact Or.inr (Or.inl ⟨rfl, hc⟩)
  refine ⟨?_, hiff⟩
  intro h10 hmem
  have hlen := (hiff.mp hmem).2.1
  omega

/-- Witness for C5: a market whose window holds eleven unit sizes and a
trade of size 100 fires Unusual Size (100 > 1 x 2.5), and the hypotheses
of the theorem hold at this input. -/
theorem unusual_size_warm_window_witness :
    AlertKind.unusualSize ∈
      ((analyze_trade defaultThresholds 0 stateSizes
        { maker_address := "U", size := 100, price := 1/1000,
          timestamp := 0, outcome := "Yes" } mktM).1.map Alert.kind) := by
  refine (unusual_size_warm_window defaultThresholds 0 stateSizes
    { maker_address := "U", size := 100, price := 1/1000, timestamp := 0,
      outcome := "Yes" } mktM (by simp [stateSizes, initState])).2.mpr
    ⟨by decide, ?_, ?_⟩
  · simp [stateSizes, initState, mktM, midKey]
  · simp only [stateSizes, initState, mktM, midKey]
    norm_num [defaultThresholds]

end PolymarketBot

namespace PolymarketBot

/-- C7: on a market with a truthy condition id, a non-duplicate call fires
Pre-Move Positioning exactly when the value exceeds pre_move_min_value,
the post-append price window (it already holds the just-appended current
price point) has more than ten entries, the sub-list of entries dated
strictly less than 1800 seconds before the trade has at least five
elements, and the current price differs from the price of the first such
entry in stored order by more than pre_move_change_pct. -/
theorem pre_move_characterization (cfg : Thresholds) (now : Int)
    (s : BotState) (t : Trade) (mkt : MarketData)
    (h : keyOf t mkt ∉ s.sent_alerts)
    (htr : truthyId mkt.condition_id = true) :
    AlertKind.preMovePositioning ∈
      ((analyze_trade cfg now s t mkt).1.map Alert.kind) ↔
    (t.size * t.price > cfg.pre_move_min_value ∧
     10 < (trimWindow 200 (s.market_prices (midKey mkt.condition_id) ++
        [{ timestamp := t.timestamp, price := t.price }])).length ∧
     5 ≤ ((trimWindow 200 (s.market_prices (midKey mkt.condition_id) ++
        [{ timestamp := t.timestamp, price := t.price }])).filter
          (fun p => decide (t.timestamp - p.timestamp < 1800))).length ∧
     |t.price - (((((trimWindow 200
          (s.market_prices (midKey mkt.condition_id) ++
            [{ timestamp := t.timestamp, price := t.price }])).filter
          (fun p => decide (t.timestamp - p.timestamp < 1800))).head?).map
            (fun p => p.price)).getD 0)| > cfg.pre_move_change_pct) := by
  have hs4 : (stage4 s t mkt).market_prices (midKey mkt.condition_id) =
      trimWindow 200 (s.market_prices (midKey mkt.condition_id) ++
        [{ timestamp := t.timestamp, price := t.price }]) := by
    simp [stage4, stage3, stage2, recordPrice_market_prices, htr, updFun]
  rw [analyze_fst h, kind_mem_alertsOf, preMoveAlerts_ne_nil_iff, hs4]
  constructor
  · rintro (⟨h1, _⟩ | ⟨h1, _⟩ | ⟨h1, _⟩ | ⟨h1, _⟩ | ⟨_, h2⟩ | ⟨h1, _⟩)
    · exact absurd h1 (by decide)
    · exact absurd h1 (by decide)
    · exact absurd h1 (by decide)
    · exact absurd h1 (by decide)
    · exact ⟨h2.1.2, h2.2.1, h2.2.2.1, h2.2.2.2⟩
    · exact absurd h1 (by decide)
  · intro hc
    exact Or.inr (Or.inr (Or.inr (Or.inr (Or.inl
      ⟨rfl, ⟨htr, hc.1⟩, hc.2.1, hc.2.2.1, hc.2.2.2⟩))))

/-- Witness for C7: ten stored half-price points and a large trade at
price nine tenths fires Pre-Move Positioning (window of eleven entries,
all within 30 minutes, |0.9 - 0.5| = 0.4 > 0.15). -/
theorem pre_move_characterization_witness :
    AlertKind.preMovePositioning ∈
      ((analyze_trade defaultThresholds 0 statePrices
        { maker_address := "P", size := 2000, price := 9/10,
          timestamp := 100, outcome := "Yes" } mktM).1.map Alert.kind) := by
  refine (pre_move_characterization defaultThresholds 0 statePrices
    { maker_address := "P", size := 2000, price := 9/10, timestamp := 100,
      outcome := "Yes" } mktM (by simp [statePrices, initState])
    (by decide)).mpr ⟨?_, ?_, ?_, ?_⟩
  · norm_num [defaultThresholds]
  · simp [statePrices, initState, mktM, midKey, trimWindow, halfPoint]
  · simp [statePrices, initState, mktM, midKey, trimWindow, halfPoint]
  · simp only [statePrices, initState, mktM, midKey, trimWindow, halfPoint]
    norm_num [defaultThresholds]
    rw [abs_of_pos (by norm_num : (0:ℚ) < 2/5)]
    norm_num

end PolymarketBot

namespace PolymarketBot

lemma coordAlerts_eq_nil_of_count {cfg : Thresholds} {s : BotState}
    {t : Trade} {mkt : MarketData} {k : String}
    (h : ¬ cfg.coordinated_min_wallets ≤
      (((s.wallets.filter (fun w =>
        (!(w == t.maker_address)) &&
        (takeLast 5 (s.wallet_history w)).any (fun e =>
          (e.market_id == mkt.condition_id) && (e.outcome == t.outcome) &&
          decide ((t.timestamp - e.timestamp).natAbs < 300)))).dedup.length :
            ℚ) + 1)) :
    coordAlerts cfg s t mkt k = [] := by
  simp only [coordAlerts]
  split_ifs <;> first
    | rfl
    | (exact absurd (by assumption) h)

lemma freshWalletAlerts_eq_of_fire {cfg : Thresholds} {now : Int}
    {s : BotState} {t : Trade} {k : String} {age : Int}
    (hga : getWalletAge s now t.maker_address = some age)
    (h1 : (age : ℚ) < cfg.fresh_wallet_days)
    (h2 : t.size * t.price > cfg.fresh_wallet_min_value) :
    freshWalletAlerts cfg now s t k =
      [{ kind := .freshWalletLargeBet, wallet := t.maker_address,
         key := k }] := by
  unfold freshWalletAlerts
  rw [hga]
  dsimp only
  rw [if_pos ⟨h1, h2⟩]

/-- Concrete evaluation: a first-ever trade of value 2000 by wallet A at
time 0 with the wall clock at 0 fires exactly the fresh-wallet alert. -/
lemma fresh_call_eval :
    (analyze_trade defaultThresholds 0 initState (bigTrade "A" 0) mktM).1 =
      [{ kind := .freshWalletLargeBet, wallet := "A", key := "A_M_0" }] := by
  have hk : keyOf (bigTrade "A" 0) mktM ∉ initState.sent_alerts := by
    simp [initState]
  rw [analyze_fst hk]
  unfold alertsOf
  have hage : getWalletAge (stage2 initState (bigTrade "A" 0) mktM) 0
      (bigTrade "A" 0).maker_address = some 0 := by
    unfold getWalletAge
    rw [if_pos (by
      simp [stage2, initState, bigTrade, recordWalletHistory_wallets])]
    simp [stage2, recordWalletHistory_wallet_history, updFun, initState,
      mkEntry, bigTrade, Int.zero_fdiv]
  rw [freshWalletAlerts_eq_of_fire hage (by norm_num [defaultThresholds])
        (by norm_num [bigTrade, defaultThresholds]),
      unusualSizeAlerts_eq_nil_of_short (by
        simp [stage2, initState, mktM, midKey]),
      nicheAlerts_eq_nil_of_count (by
        simp only [stage3, stage2, recordSize_wallet_history,
          recordPrice_wallet_history, recordWalletHistory_wallet_history,
          updFun, initState, mkEntry, bigTrade, mktM]
        norm_num [defaultThresholds]),
      convictionAlerts_eq_nil_of_short (by
        simp [stage4, stage3, stage2, recordOutcome_wallet_outcomes,
          updFun, initState, mkOutcome, bigTrade]),
      preMoveAlerts_eq_nil_of_short (by
        simp [stage4, stage3, stage2, recordPrice_market_prices, updFun,
          initState, mktM, midKey, trimWindow, truthyId]),
      coordAlerts_eq_nil_of_count (by
        simp only [stage4, stage3, stage2, recordOutcome_wallets,
          recordSize_wallets, recordPrice_wallets,
          recordWalletHistory_wallets, recordOutcome_wallet_history,
          recordSize_wallet_history, recordPrice_wallet_history,
          recordWalletHistory_wallet_history, updFun, initState, bigTrade,
          mktM, List.filter, takeLast]
        norm_num [defaultThresholds])]
  simp only [List.append_nil, List.nil_append]
  decide

end PolymarketBot

namespace PolymarketBot

lemma botState_ext {a b : BotState} (h1 : a.wallets = b.wallets)
    (h2 : a.wallet_history = b.wallet_history)
    (h3 : a.market_volumes = b.market_volumes)
    (h4 : a.market_prices = b.market_prices)
    (h5 : a.wallet_outcomes = b.wallet_outcomes)
    (h6 : a.sent_alerts = b.sent_alerts) : a = b := by
  cases a
  cases b
  simp_all

lemma nicheAlerts_eq_of_fire {cfg : Thresholds} {s : BotState} {t : Trade}
    {mkt : MarketData} {k : String}
    (h1 : ((((s.wallet_history t.maker_address).filter
        (fun e => mkt.question == some e.market)).length : ℚ) >
          cfg.niche_trades_min))
    (h2 : mkt.volume < cfg.niche_volume_max) :
    nicheAlerts cfg s t mkt k =
      [{ kind := .repeatNichePlayer, wallet := t.maker_address,
         key := k }] := by
  simp only [nicheAlerts]
  rw [if_pos ⟨h1, h2⟩]

lemma coordAlerts_eq_of_fire {cfg : Thresholds} {s : BotState} {t : Trade}
    {mkt : MarketData} {k : String}
    (h1 : truthyId mkt.condition_id = true ∧
      t.size * t.price > cfg.coordinated_min_value)
    (h2 : cfg.coordinated_min_wallets ≤
      (((s.wallets.filter (fun w =>
        (!(w == t.maker_address)) &&
        (takeLast 5 (s.wallet_history w)).any (fun e =>
          (e.market_id == mkt.condition_id) && (e.outcome == t.outcome) &&
          decide ((t.timestamp - e.timestamp).natAbs < 300)))).dedup.length :
            ℚ) + 1)) :
    coordAlerts cfg s t mkt k =
      [{ kind := .coordinatedEntry, wallet := t.maker_address,
         key := k }] := by
  simp only [coordAlerts]
  rw [if_pos h1, if_pos h2]

end PolymarketBot

namespace PolymarketBot

/-- The zero-value trade trW 100 processed on stateW fires nothing and
appends to all four stores, leaving the ledger empty. -/
lemma stateW_call_eval :
    analyze_trade defaultThresholds 0 stateW (trW 100) mktM =
      ([], stateW3) := by
  have hk : keyOf (trW 100) mktM ∉ stateW.sent_alerts := by simp [stateW]
  have hA : alertsOf defaultThresholds 0 stateW (trW 100) mktM = [] := by
    unfold alertsOf
    rw [freshWalletAlerts_eq_nil_of_value (by
          norm_num [trW, defaultThresholds]),
        unusualSizeAlerts_eq_nil_of_short (by
          simp [stage2, stateW, mktM, midKey, trW]),
        nicheAlerts_eq_nil_of_count (by
          simp only [stage3, stage2, recordSize_wallet_history,
            recordPrice_wallet_history, recordWalletHistory_wallet_history,
            updFun, stateW, mkEntry, trW, mktM]
          norm_num [defaultThresholds]),
        convictionAlerts_eq_nil_of_short (by
          simp [stage4, stage3, stage2, recordOutcome_wallet_outcomes,
            updFun, stateW, mkOutcome, trW]),
        preMoveAlerts_eq_nil_of_value (by
          norm_num [trW, defaultThresholds]),
        coordAlerts_eq_nil_of_value (by
          norm_num [trW, defaultThresholds])]
    rfl
  rw [analyze_eq hk, hA]
  rw [if_pos rfl]
  refine Prod.ext_iff.mpr ⟨rfl, ?_⟩
  apply botState_ext
  · simp [stage4, stage3, stage2, recordWalletHistory_wallets, stateW,
      stateW3, trW]
  · funext w
    by_cases hw : w = "W" <;>
      simp [stage4, stage3, stage2, recordWalletHistory_wallet_history,
        updFun, stateW, stateW3, hw, trW]
  · funext m
    by_cases hm : m = "M" <;>
      simp [stage4, stage3, stage2, recordSize_market_volumes, updFun,
        stateW, stateW3, hm, trW, mktM, midKey, truthyId, trimWindow]
  · funext m
    by_cases hm : m = "M" <;>
      simp [stage4, stage3, stage2, recordPrice_market_prices, updFun,
        stateW, stateW3, hm, trW, mktM, midKey, truthyId, trimWindow]
  · funext w
    by_cases hw : w = "W" <;>
      simp [stage4, stage3, stage2, recordOutcome_wallet_outcomes, updFun,
        stateW, stateW3, hw, trW, mktM, mkOutcome]
  · simp [stage4, stage3, stage2, stateW, stateW3]

/-- Re-delivering trW 100 to stateW3 fires the Repeat-Niche-Player rule:
the duplicate appended a fourth matching history entry. -/
lemma stateW3_call_eval :
    (analyze_trade defaultThresholds 0 stateW3 (trW 100) mktM).1 =
      [{ kind := .repeatNichePlayer, wallet := "W", key := "W_M_100" }] := by
  have hk : keyOf (trW 100) mktM ∉ stateW3.sent_alerts := by simp [stateW3]
  rw [analyze_fst hk]
  unfold alertsOf
  rw [freshWalletAlerts_eq_nil_of_value (by
        norm_num [trW, defaultThresholds]),
      unusualSizeAlerts_eq_nil_of_short (by
        simp [stage2, stateW3, mktM, midKey]),
      nicheAlerts_eq_of_fire (by
        simp only [stage3, stage2, recordSize_wallet_history,
          recordPrice_wallet_history, recordWalletHistory_wallet_history,
          updFun, stateW3, mkEntry, trW, mktM]
        norm_num [defaultThresholds]) (by norm_num [mktM, defaultThresholds]),
      convictionAlerts_eq_nil_of_short (by
        simp [stage4, stage3, stage2, recordOutcome_wallet_outcomes,
          updFun, stateW3, mkOutcome, trW]),
      preMoveAlerts_eq_nil_of_value (by
        norm_num [trW, defaultThresholds]),
      coordAlerts_eq_nil_of_value (by
        norm_num [trW, defaultThresholds])]
  simp only [List.append_nil, List.nil_append]
  decide

/-- C1 counterexample: after stateW (two prior recorded trades of wallet
W on market M), the trade trW 100 is processed twice.  The first call
returns no alert, so the dedup key is never marked: the second, identical
delivery appends to the wallet history again (length 3 to 4) and even
returns an alert that the first call did not.  The duplicate delivery is
neither alert-free nor a no-op. -/
theorem duplicate_delivery_not_noop_cex :
    (analyze_trade defaultThresholds 0 stateW (trW 100) mktM).1 = [] ∧
    ((analyze_trade defaultThresholds 0 stateW
      (trW 100) mktM).2.wallet_history "W").length = 3 ∧
    (analyze_trade defaultThresholds 0
      (analyze_trade defaultThresholds 0 stateW (trW 100) mktM).2
      (trW 100) mktM).1 ≠ [] ∧
    ((analyze_trade defaultThresholds 0
      (analyze_trade defaultThresholds 0 stateW (trW 100) mktM).2
      (trW 100) mktM).2.wallet_history "W").length = 4 := by
  rw [stateW_call_eval]
  refine ⟨rfl, by simp [stateW3], ?_, ?_⟩
  · show (analyze_trade defaultThresholds 0 stateW3 (trW 100) mktM).1 ≠ []
    rw [stateW3_call_eval]
    simp
  · show ((analyze_trade defaultThresholds 0 stateW3
      (trW 100) mktM).2.wallet_history "W").length = 4
    rw [analyze_snd_wallet_history (by simp [stateW3] :
      keyOf (trW 100) mktM ∉ stateW3.sent_alerts)]
    simp [updFun, stateW3, trW]

end PolymarketBot

namespace PolymarketBot

/-- C1 (amended): when the first delivery of a trade produces at least one
alert, its dedup key is marked, and an identical second delivery (at any
wall clock) returns no alert and leaves the state exactly unchanged. -/
theorem duplicate_after_alerting_call_noop (cfg : Thresholds)
    (now now2 : Int) (s : BotState) (t : Trade) (mkt : MarketData)
    (h : (analyze_trade cfg now s t mkt).1 ≠ []) :
    analyze_trade cfg now2 (analyze_trade cfg now s t mkt).2 t mkt =
      ([], (analyze_trade cfg now s t mkt).2) := by
  by_cases hdup : keyOf t mkt ∈ s.sent_alerts
  · rw [analyze_dup hdup] at h
    exact absurd rfl h
  · have hkey : keyOf t mkt ∈
        (analyze_trade cfg now s t mkt).2.sent_alerts := by
      rw [analyze_snd_sent hdup, if_neg h]
      exact mem_listInsert.mpr (Or.inl rfl)
    exact analyze_dup hkey

/-- Witness for C1 (amended): wallet A's first trade fires a fresh-wallet
alert, and the identical re-delivery is a complete no-op. -/
theorem duplicate_after_alerting_call_noop_witness :
    (analyze_trade defaultThresholds 0 initState
        (bigTrade "A" 0) mktM).1 ≠ [] ∧
    analyze_trade defaultThresholds 5
        (analyze_trade defaultThresholds 0 initState
          (bigTrade "A" 0) mktM).2 (bigTrade "A" 0) mktM =
      ([], (analyze_trade defaultThresholds 0 initState
        (bigTrade "A" 0) mktM).2) := by
  have hne : (analyze_trade defaultThresholds 0 initState
      (bigTrade "A" 0) mktM).1 ≠ [] := by
    rw [fresh_call_eval]
    simp
  exact ⟨hne, duplicate_after_alerting_call_noop defaultThresholds 0 5
    initState (bigTrade "A" 0) mktM hne⟩

/-- C8 counterexample: the key of the alert actually emitted for wallet A
on market M at time 0 is the underscore-separated A_M_0, which differs
from the bare concatenation of wallet, market id and timestamp. -/
theorem alert_key_has_separators_cex :
    ((analyze_trade defaultThresholds 0 initState
        (bigTrade "A" 0) mktM).1.map Alert.key = ["A_M_0"]) ∧
    "A_M_0" ≠ "A" ++ "M" ++ toString (0 : Int) := by
  constructor
  · rw [fresh_call_eval]
    rfl
  · decide

/-- C8 (amended): every alert of every call carries the dedup key built as
wallet, underscore, interpolated condition id, underscore, interpolated
timestamp. -/
theorem alert_key_format (cfg : Thresholds) (now : Int) (s : BotState)
    (t : Trade) (mkt : MarketData) :
    ∀ a ∈ (analyze_trade cfg now s t mkt).1,
      a.key = t.maker_address ++ "_" ++ optStr mkt.condition_id ++ "_" ++
        toString t.timestamp := by
  intro a ha
  by_cases hdup : keyOf t mkt ∈ s.sent_alerts
  · rw [analyze_dup hdup] at ha
    exact absurd ha (List.not_mem_nil a)
  · rw [analyze_fst hdup] at ha
    exact mem_alertsOf_key ha

/-- Witness for C8 (amended): the emitted fresh-wallet alert of the
concrete call carries exactly that key. -/
theorem alert_key_format_witness :
    ((analyze_trade defaultThresholds 0 initState (bigTrade "A" 0)
        mktM).1.headD
      { kind := .freshWalletLargeBet, wallet := "", key := "" }).key =
      (bigTrade "A" 0).maker_address ++ "_" ++ optStr mktM.condition_id ++
        "_" ++ toString (bigTrade "A" 0).timestamp := by
  refine alert_key_format defaultThresholds 0 initState (bigTrade "A" 0)
    mktM _ ?_
  rw [fresh_call_eval]
  simp

/-- C3: for a call whose dedup key was not previously seen, the key is in
the ledger afterwards exactly when the call returned at least one alert;
every alert of the call carries that same key; and a zero-alert call
leaves the ledger unchanged. -/
theorem dedup_mark_iff_alerts (cfg : Thresholds) (now : Int) (s : BotState)
    (t : Trade) (mkt : MarketData) (h : keyOf t mkt ∉ s.sent_alerts) :
    (keyOf t mkt ∈ (analyze_trade cfg now s t mkt).2.sent_alerts ↔
      (analyze_trade cfg now s t mkt).1 ≠ []) ∧
    (∀ a ∈ (analyze_trade cfg now s t mkt).1, a.key = keyOf t mkt) ∧
    ((analyze_trade cfg now s t mkt).1 = [] →
      (analyze_trade cfg now s t mkt).2.sent_alerts = s.sent_alerts) := by
  have hsent := @analyze_snd_sent cfg now s t mkt h
  refine ⟨?_, ?_, ?_⟩
  · rw [hsent]
    by_cases hnil : (analyze_trade cfg now s t mkt).1 = []
    · rw [if_pos hnil]
      exact ⟨fun hk => absurd hk h, fun hne => absurd hnil hne⟩
    · rw [if_neg hnil]
      exact ⟨fun _ => hnil, fun _ => mem_listInsert.mpr (Or.inl rfl)⟩
  · intro a ha
    rw [analyze_fst h] at ha
    exact mem_alertsOf_key ha
  · intro hnil
    rw [hsent, if_pos hnil]

end PolymarketBot

namespace PolymarketBot

/-- Wallet A's value-2000 trade on market M at time 20, processed on
stateBC, fires both the fresh-wallet rule and (with B and C having
matching trades within 300 seconds) the coordinated-entry rule. -/
lemma stateBC_call_eval :
    (analyze_trade defaultThresholds 20 stateBC (bigTrade "A" 20) mktM).1 =
      [{ kind := .freshWalletLargeBet, wallet := "A", key := "A_M_20" },
       { kind := .coordinatedEntry, wallet := "A", key := "A_M_20" }] := by
  have hk : keyOf (bigTrade "A" 20) mktM ∉ stateBC.sent_alerts := by decide
  rw [analyze_fst hk]
  unfold alertsOf
  have hage : getWalletAge (stage2 stateBC (bigTrade "A" 20) mktM) 20
      (bigTrade "A" 20).maker_address = some 0 := by
    unfold getWalletAge
    rw [if_pos (by
      simp [stage2, stateBC, bigTrade, recordWalletHistory_wallets])]
    simp [stage2, recordWalletHistory_wallet_history, updFun, stateBC,
      mkEntry, bigTrade]
  have hfil : (stage4 stateBC (bigTrade "A" 20) mktM).wallets.filter
      (fun w => (!(w == (bigTrade "A" 20).maker_address)) &&
        (takeLast 5 ((stage4 stateBC (bigTrade "A" 20)
            mktM).wallet_history w)).any (fun e =>
          (e.market_id == mktM.condition_id) &&
          (e.outcome == (bigTrade "A" 20).outcome) &&
          decide (((bigTrade "A" 20).timestamp - e.timestamp).natAbs <
            300))) = ["B", "C"] := by
    decide
  rw [freshWalletAlerts_eq_of_fire hage (by norm_num [defaultThresholds])
        (by norm_num [bigTrade, defaultThresholds]),
      unusualSizeAlerts_eq_nil_of_short (by
        simp [stage2, stateBC, mktM, midKey]),
      nicheAlerts_eq_nil_of_count (by
        simp only [stage3, stage2, recordSize_wallet_history,
          recordPrice_wallet_history, recordWalletHistory_wallet_history,
          updFun, stateBC, mkEntry, bigTrade, mktM]
        rw [if_neg (by decide : ¬ (("A" : String) = "B")),
          if_neg (by decide : ¬ (("A" : String) = "C"))]
        norm_num [defaultThresholds]),
      convictionAlerts_eq_nil_of_short (by
        simp [stage4, stage3, stage2, recordOutcome_wallet_outcomes,
          updFun, stateBC, mkOutcome, bigTrade]),
      preMoveAlerts_eq_nil_of_short (by
        simp [stage4, stage3, stage2, recordPrice_market_prices, updFun,
          stateBC, mktM, midKey, truthyId, trimWindow]),
      coordAlerts_eq_of_fire ⟨by decide,
        by norm_num [bigTrade, defaultThresholds]⟩ (by
          rw [hfil,
            show (["B", "C"] : List String).dedup = ["B", "C"] by decide]
          norm_num [defaultThresholds])]
  simp only [List.append_nil, List.nil_append]
  decide

/-- Witness for C3: on stateBC (wallets B and C already recorded, keys
B_M_0 and C_M_10 marked), wallet A's unseen trade returns two alerts of
distinct rule types, both carrying the key A_M_20, which is added to the
ledger. -/
theorem dedup_mark_iff_alerts_witness :
    ((keyOf (bigTrade "A" 20) mktM ∈
        (analyze_trade defaultThresholds 20 stateBC (bigTrade "A" 20)
          mktM).2.sent_alerts ↔
      (analyze_trade defaultThresholds 20 stateBC (bigTrade "A" 20)
        mktM).1 ≠ []) ∧
    (∀ a ∈ (analyze_trade defaultThresholds 20 stateBC (bigTrade "A" 20)
        mktM).1, a.key = keyOf (bigTrade "A" 20) mktM) ∧
    ((analyze_trade defaultThresholds 20 stateBC (bigTrade "A" 20)
        mktM).1 = [] →
      (analyze_trade defaultThresholds 20 stateBC (bigTrade "A" 20)
        mktM).2.sent_alerts = stateBC.sent_alerts)) ∧
    ((analyze_trade defaultThresholds 20 stateBC (bigTrade "A" 20)
        mktM).1.map Alert.kind =
      [.freshWalletLargeBet, .coordinatedEntry]) := by
  constructor
  · exact dedup_mark_iff_alerts defaultThresholds 20 stateBC
      (bigTrade "A" 20) mktM (by decide)
  · rw [stateBC_call_eval]
    rfl

end PolymarketBot

namespace PolymarketBot

lemma freshWalletAlerts_eq_nil_of_age {cfg : Thresholds} {now : Int}
    {s : BotState} {t : Trade} {k : String} {age : Int}
    (hga : getWalletAge s now t.maker_address = some age)
    (h : ¬ (age : ℚ) < cfg.fresh_wallet_days) :
    freshWalletAlerts cfg now s t k = [] := by
  unfold freshWalletAlerts
  rw [hga]
  dsimp only
  rw [if_neg (fun hc => h hc.1)]

lemma fdiv_day_zero {a : Int} (h0 : 0 ≤ a) (h1 : a < 86400) :
    Int.fdiv a 86400 = 0 := by
  rw [Int.fdiv_eq_ediv _ (by norm_num), Int.ediv_eq_zero_of_lt h0 h1]

/-- C4 counterexample: wallet A has no history at all and its first trade
has value 2000 above the 1000 threshold, yet when the wall clock is 20
days past the trade timestamp get_wallet_age computes 20 days, not 0, and
no Fresh-Wallet alert is produced. -/
theorem fresh_wallet_stale_timestamp_cex :
    (bigTrade "A" 0).size * (bigTrade "A" 0).price >
      defaultThresholds.fresh_wallet_min_value ∧
    "A" ∉ initState.wallets ∧
    initState.wallet_history "A" = [] ∧
    0 < defaultThresholds.fresh_wallet_days ∧
    AlertKind.freshWalletLargeBet ∉
      ((analyze_trade defaultThresholds 1728000 initState
        (bigTrade "A" 0) mktM).1.map Alert.kind) := by
  have hk : keyOf (bigTrade "A" 0) mktM ∉ initState.sent_alerts := by
    simp [initState]
  have hage : getWalletAge (stage2 initState (bigTrade "A" 0) mktM)
      1728000 (bigTrade "A" 0).maker_address = some 20 := by
    unfold getWalletAge
    rw [if_pos (by
      simp [stage2, initState, bigTrade, recordWalletHistory_wallets])]
    simp [stage2, recordWalletHistory_wallet_history, updFun, initState,
      mkEntry, bigTrade]
  have hfst : (analyze_trade defaultThresholds 1728000 initState
      (bigTrade "A" 0) mktM).1 = [] := by
    rw [analyze_fst hk]
    unfold alertsOf
    have hfil : (stage4 initState (bigTrade "A" 0) mktM).wallets.filter
        (fun w => (!(w == (bigTrade "A" 0).maker_address)) &&
          (takeLast 5 ((stage4 initState (bigTrade "A" 0)
              mktM).wallet_history w)).any (fun e =>
            (e.market_id == mktM.condition_id) &&
            (e.outcome == (bigTrade "A" 0).outcome) &&
            decide (((bigTrade "A" 0).timestamp - e.timestamp).natAbs <
              300))) = [] := by
      decide
    rw [freshWalletAlerts_eq_nil_of_age hage (by
          norm_num [defaultThresholds]),
        unusualSizeAlerts_eq_nil_of_short (by
          simp [stage2, initState, mktM, midKey]),
        nicheAlerts_eq_nil_of_count (by
          simp only [stage3, stage2, recordSize_wallet_history,
            recordPrice_wallet_history, recordWalletHistory_wallet_history,
            updFun, initState, mkEntry, bigTrade, mktM]
          norm_num [defaultThresholds]),
        convictionAlerts_eq_nil_of_short (by
          simp [stage4, stage3, stage2, recordOutcome_wallet_outcomes,
            updFun, initState, mkOutcome, bigTrade]),
        preMoveAlerts_eq_nil_of_short (by
          simp [stage4, stage3, stage2, recordPrice_market_prices, updFun,
            initState, mktM, midKey, truthyId, trimWindow]),
        coordAlerts_eq_nil_of_count (by
          rw [hfil]
          norm_num [defaultThresholds])]
    rfl
  refine ⟨by norm_num [bigTrade, defaultThresholds], by simp [initState],
    by simp [initState], by norm_num [defaultThresholds], ?_⟩
  rw [hfst]
  simp

/-- C4 (amended): a wallet with no prior recorded history whose first
trade exceeds fresh_wallet_min_value fires the Fresh-Wallet rule when the
wall clock lies within a day after the trade timestamp: the entry is
appended before the rule reads the age, so the computed age is exactly 0
days.  (With a stale timestamp the computed age is the wall-clock day
difference and the rule need not fire; see the counterexample.) -/
theorem fresh_wallet_first_trade_recent (cfg : Thresholds) (now : Int)
    (s : BotState) (t : Trade) (mkt : MarketData)
    (hw : t.maker_address ∉ s.wallets)
    (hh : s.wallet_history t.maker_address = [])
    (hk : keyOf t mkt ∉ s.sent_alerts)
    (hv : t.size * t.price > cfg.fresh_wallet_min_value)
    (h0 : 0 ≤ now - t.timestamp) (h1 : now - t.timestamp < 86400)
    (hd : 0 < cfg.fresh_wallet_days) :
    getWalletAge (recordWalletHistory s t mkt) now t.maker_address =
      some 0 ∧
    AlertKind.freshWalletLargeBet ∈
      ((analyze_trade cfg now s t mkt).1.map Alert.kind) := by
  have hga : getWalletAge (recordWalletHistory s t mkt) now
      t.maker_address = some 0 := by
    unfold getWalletAge
    rw [if_pos (by
      rw [recordWalletHistory_wallets, if_neg hw]
      simp)]
    rw [recordWalletHistory_wallet_history]
    unfold updFun
    rw [if_pos rfl, hh]
    simp [mkEntry, fdiv_day_zero h0 h1]
  have hga2 : getWalletAge (stage2 s t mkt) now t.maker_address =
      getWalletAge (recordWalletHistory s t mkt) now t.maker_address := by
    unfold getWalletAge stage2
    rw [recordPrice_wallets, recordPrice_wallet_history]
  refine ⟨hga, ?_⟩
  rw [analyze_fst hk, kind_mem_alertsOf]
  refine Or.inl ⟨rfl, freshWalletAlerts_ne_nil_iff.mpr ⟨0, ?_, ?_, hv⟩⟩
  · rw [hga2, hga]
  · simpa using hd

/-- Witness for C4 (amended): wallet A, empty state, trade at time 0 with
the wall clock at 0: the computed age is 0 and the alert fires. -/
theorem fresh_wallet_first_trade_recent_witness :
    getWalletAge (recordWalletHistory initState (bigTrade "A" 0) mktM) 0
      "A" = some 0 ∧
    AlertKind.freshWalletLargeBet ∈
      ((analyze_trade defaultThresholds 0 initState
        (bigTrade "A" 0) mktM).1.map Alert.kind) :=
  fresh_wallet_first_trade_recent defaultThresholds 0 initState
    (bigTrade "A" 0) mktM (by simp [initState]) (by simp [initState])
    (by simp [initState]) (by norm_num [bigTrade, defaultThresholds])
    (by norm_num [bigTrade]) (by norm_num [bigTrade])
    (by norm_num [defaultThresholds])

end PolymarketBot

namespace PolymarketBot

/-- C10: on a market without a truthy condition id (absent or empty), a
non-duplicate call leaves both per-market windows untouched and can emit
no Unusual-Size, Pre-Move or Coordinated-Entry alert, while it still
appends to the wallet history and outcome stores and still evaluates the
Fresh-Wallet, Repeat-Niche-Player and Conviction rules. -/
theorem missing_market_id_frame (cfg : Thresholds) (now : Int)
    (s : BotState) (t : Trade) (mkt : MarketData)
    (htr : truthyId mkt.condition_id = false)
    (hk : keyOf t mkt ∉ s.sent_alerts) :
    (analyze_trade cfg now s t mkt).2.market_volumes = s.market_volumes ∧
    (analyze_trade cfg now s t mkt).2.market_prices = s.market_prices ∧
    (∀ a ∈ (analyze_trade cfg now s t mkt).1,
      a.kind ≠ .unusualSize ∧ a.kind ≠ .preMovePositioning ∧
        a.kind ≠ .coordinatedEntry) ∧
    (analyze_trade cfg now s t mkt).2.wallet_history t.maker_address =
      s.wallet_history t.maker_address ++ [mkEntry t mkt] ∧
    (analyze_trade cfg now s t mkt).2.wallet_outcomes t.maker_address =
      s.wallet_outcomes t.maker_address ++ [mkOutcome t mkt] ∧
    (analyze_trade cfg now s t mkt).1 =
      freshWalletAlerts cfg now (stage2 s t mkt) t (keyOf t mkt) ++
      nicheAlerts cfg (stage3 s t mkt) t mkt (keyOf t mkt) ++
      convictionAlerts cfg (stage4 s t mkt) t (keyOf t mkt) := by
  have hbool : ¬ (truthyId mkt.condition_id = true) := by simp [htr]
  have ha2 : unusualSizeAlerts cfg (stage2 s t mkt) t mkt
      (keyOf t mkt) = [] := by
    simp only [unusualSizeAlerts]
    rw [if_neg hbool]
  have ha5 : preMoveAlerts cfg (stage4 s t mkt) t mkt (keyOf t mkt) = [] := by
    simp only [preMoveAlerts]
    rw [if_neg (fun hc => hbool hc.1)]
  have ha6 : coordAlerts cfg (stage4 s t mkt) t mkt (keyOf t mkt) = [] := by
    simp only [coordAlerts]
    rw [if_neg (fun hc => hbool hc.1)]
  have hfst : (analyze_trade cfg now s t mkt).1 =
      freshWalletAlerts cfg now (stage2 s t mkt) t (keyOf t mkt) ++
      nicheAlerts cfg (stage3 s t mkt) t mkt (keyOf t mkt) ++
      convictionAlerts cfg (stage4 s t mkt) t (keyOf t mkt) := by
    rw [analyze_fst hk]
    unfold alertsOf
    rw [ha2, ha5, ha6]
    simp
  refine ⟨?_, ?_, ?_, ?_, ?_, hfst⟩
  · rw [analyze_market_volumes, if_neg hk, if_neg hbool]
  · rw [analyze_market_prices, if_neg hk, if_neg hbool]
  · intro a ha
    rw [hfst] at ha
    simp only [List.mem_append] at ha
    rcases ha with (ha | ha) | ha
    · rw [mem_freshWalletAlerts ha]
      exact ⟨by simp, by simp, by simp⟩
    · rw [mem_nicheAlerts ha]
      exact ⟨by simp, by simp, by simp⟩
    · rw [mem_convictionAlerts ha]
      exact ⟨by simp, by simp, by simp⟩
  · rw [analyze_snd_wallet_history hk]
    unfold updFun
    rw [if_pos rfl]
  · rw [analyze_snd_wallet_outcomes hk]
    unfold updFun
    rw [if_pos rfl]

/-- Witness for C10: a trade on a market with no condition id processed
from the empty state. -/
theorem missing_market_id_frame_witness :
    (analyze_trade defaultThresholds 0 initState (bigTrade "A" 0)
        mktNone).2.market_volumes = initState.market_volumes ∧
    (analyze_trade defaultThresholds 0 initState (bigTrade "A" 0)
        mktNone).2.market_prices = initState.market_prices ∧
    (∀ a ∈ (analyze_trade defaultThresholds 0 initState (bigTrade "A" 0)
        mktNone).1,
      a.kind ≠ .unusualSize ∧ a.kind ≠ .preMovePositioning ∧
        a.kind ≠ .coordinatedEntry) ∧
    (analyze_trade defaultThresholds 0 initState (bigTrade "A" 0)
        mktNone).2.wallet_history "A" =
      initState.wallet_history "A" ++ [mkEntry (bigTrade "A" 0) mktNone] ∧
    (analyze_trade defaultThresholds 0 initState (bigTrade "A" 0)
        mktNone).2.wallet_outcomes "A" =
      initState.wallet_outcomes "A" ++
        [mkOutcome (bigTrade "A" 0) mktNone] ∧
    (analyze_trade defaultThresholds 0 initState (bigTrade "A" 0)
        mktNone).1 =
      freshWalletAlerts defaultThresholds 0
        (stage2 initState (bigTrade "A" 0) mktNone) (bigTrade "A" 0)
        (keyOf (bigTrade "A" 0) mktNone) ++
      nicheAlerts defaultThresholds
        (stage3 initState (bigTrade "A" 0) mktNone) (bigTrade "A" 0)
        mktNone (keyOf (bigTrade "A" 0) mktNone) ++
      convictionAlerts defaultThresholds
        (stage4 initState (bigTrade "A" 0) mktNone) (bigTrade "A" 0)
        (keyOf (bigTrade "A" 0) mktNone) :=
  missing_market_id_frame defaultThresholds 0 initState (bigTrade "A" 0)
    mktNone (by decide) (by simp [initState])

end PolymarketBot

namespace PolymarketBot

/-- C6, call 1: wallet D trades No at tD on the empty state; no rule
fires and the state becomes c6sD tD. -/
lemma c6_call_D (tD now : Int) :
    analyze_trade defaultThresholds now initState (midTrade "D" tD "No")
      mktM = ([], c6sD tD) := by
  have hk : keyOf (midTrade "D" tD "No") mktM ∉ initState.sent_alerts := by
    simp [initState]
  have hA : alertsOf defaultThresholds now initState
      (midTrade "D" tD "No") mktM = [] := by
    unfold alertsOf
    rw [freshWalletAlerts_eq_nil_of_value (by
          norm_num [midTrade, defaultThresholds]),
        unusualSizeAlerts_eq_nil_of_short (by
          simp [stage2, initState, mktM, midKey]),
        nicheAlerts_eq_nil_of_count (by
          simp only [stage3, stage2, recordSize_wallet_history,
            recordPrice_wallet_history, recordWalletHistory_wallet_history,
            updFun, initState, mkEntry, midTrade, mktM]
          norm_num [defaultThresholds]),
        convictionAlerts_eq_nil_of_short (by
          simp [stage4, stage3, stage2, recordOutcome_wallet_outcomes,
            updFun, initState, mkOutcome, midTrade]),
        preMoveAlerts_eq_nil_of_value (by
          norm_num [midTrade, defaultThresholds]),
        coordAlerts_eq_nil_of_count (by
          simp only [stage4, stage3, stage2, recordOutcome_wallets,
            recordSize_wallets, recordPrice_wallets,
            recordWalletHistory_wallets, recordOutcome_wallet_history,
            recordSize_wallet_history, recordPrice_wallet_history,
            recordWalletHistory_wallet_history, updFun, initState,
            midTrade, mktM, takeLast, mkEntry]
          simp [List.filter]
          norm_num [defaultThresholds])]
    rfl
  rw [analyze_eq hk, hA]
  rw [if_pos rfl]
  refine Prod.ext_iff.mpr ⟨rfl, ?_⟩
  apply botState_ext
  · simp [stage4, stage3, stage2, recordWalletHistory_wallets, initState,
      c6sD, midTrade]
  · funext w
    by_cases hw : w = "D" <;>
      simp [stage4, stage3, stage2, recordWalletHistory_wallet_history,
        updFun, initState, c6sD, hw, midTrade]
  · funext m
    by_cases hm : m = "M" <;>
      simp [stage4, stage3, stage2, recordSize_market_volumes, updFun,
        initState, c6sD, hm, midTrade, mktM, midKey, truthyId, trimWindow]
  · funext m
    by_cases hm : m = "M" <;>
      simp [stage4, stage3, stage2, recordPrice_market_prices, updFun,
        initState, c6sD, hm, midTrade, mktM, midKey, truthyId, trimWindow]
  · funext w
    by_cases hw : w = "D" <;>
      simp [stage4, stage3, stage2, recordOutcome_wallet_outcomes, updFun,
        initState, c6sD, hw, midTrade, mktM, mkOutcome]
  · simp [stage4, stage3, stage2, initState, c6sD]

end PolymarketBot

namespace PolymarketBot

/-- C6, call 2: wallet A trades Yes at tA on c6sD; D has a different
outcome, so the coordinated count is 0 and nothing fires. -/
lemma c6_call_A (tD tA now : Int) :
    analyze_trade defaultThresholds now (c6sD tD)
      (midTrade "A" tA "Yes") mktM = ([], c6sA tD tA) := by
  have hk : keyOf (midTrade "A" tA "Yes") mktM ∉
      (c6sD tD).sent_alerts := by simp [c6sD]
  have hA : alertsOf defaultThresholds now (c6sD tD)
      (midTrade "A" tA "Yes") mktM = [] := by
    unfold alertsOf
    rw [freshWalletAlerts_eq_nil_of_value (by
          norm_num [midTrade, defaultThresholds]),
        unusualSizeAlerts_eq_nil_of_short (by
          simp [stage2, c6sD, mktM, midKey]),
        nicheAlerts_eq_nil_of_count (by
          simp only [stage3, stage2, recordSize_wallet_history,
            recordPrice_wallet_history, recordWalletHistory_wallet_history,
            updFun, c6sD, mkEntry, midTrade, mktM]
          rw [if_neg (by decide : ¬ (("A" : String) = "D"))]
          norm_num [defaultThresholds]),
        convictionAlerts_eq_nil_of_short (by
          simp [stage4, stage3, stage2, recordOutcome_wallet_outcomes,
            updFun, c6sD, mkOutcome, midTrade]),
        preMoveAlerts_eq_nil_of_value (by
          norm_num [midTrade, defaultThresholds]),
        coordAlerts_eq_nil_of_count (by
          simp only [stage4, stage3, stage2, recordOutcome_wallets,
            recordSize_wallets, recordPrice_wallets,
            recordWalletHistory_wallets, recordOutcome_wallet_history,
            recordSize_wallet_history, recordPrice_wallet_history,
            recordWalletHistory_wallet_history, updFun, c6sD, midTrade,
            mktM, takeLast, mkEntry]
          simp [List.filter]
          norm_num [defaultThresholds])]
    rfl
  rw [analyze_eq hk, hA]
  rw [if_pos rfl]
  refine Prod.ext_iff.mpr ⟨rfl, ?_⟩
  apply botState_ext
  · simp [stage4, stage3, stage2, recordWalletHistory_wallets, c6sD,
      c6sA, midTrade]
  · funext w
    by_cases hw : w = "D"
    · simp [stage4, stage3, stage2, recordWalletHistory_wallet_history,
        updFun, c6sD, c6sA, hw, midTrade]
    · by_cases hw2 : w = "A" <;>
        simp [stage4, stage3, stage2, recordWalletHistory_wallet_history,
          updFun, c6sD, c6sA, hw, hw2, midTrade]
  · funext m
    by_cases hm : m = "M" <;>
      simp [stage4, stage3, stage2, recordSize_market_volumes, updFun,
        c6sD, c6sA, hm, midTrade, mktM, midKey, truthyId, trimWindow]
  · funext m
    by_cases hm : m = "M" <;>
      simp [stage4, stage3, stage2, recordPrice_market_prices, updFun,
        c6sD, c6sA, hm, midTrade, mktM, midKey, truthyId, trimWindow]
  · funext w
    by_cases hw : w = "D"
    · simp [stage4, stage3, stage2, recordOutcome_wallet_outcomes, updFun,
        c6sD, c6sA, hw, midTrade, mktM, mkOutcome]
    · by_cases hw2 : w = "A" <;>
        simp [stage4, stage3, stage2, recordOutcome_wallet_outcomes,
          updFun, c6sD, c6sA, hw, hw2, midTrade, mktM, mkOutcome]
  · simp [stage4, stage3, stage2, c6sD, c6sA]

/-- C6, call 3: wallet B trades Yes at tB on c6sA; only A matches (within
300 seconds by hypothesis), so the count 1 + 1 = 2 stays below 3 and
nothing fires. -/
lemma c6_call_B (tD tA tB now : Int) (hBA : (tB - tA).natAbs < 300) :
    analyze_trade defaultThresholds now (c6sA tD tA)
      (midTrade "B" tB "Yes") mktM = ([], c6sB tD tA tB) := by
  have hk : keyOf (midTrade "B" tB "Yes") mktM ∉
      (c6sA tD tA).sent_alerts := by simp [c6sA]
  have hA : alertsOf defaultThresholds now (c6sA tD tA)
      (midTrade "B" tB "Yes") mktM = [] := by
    unfold alertsOf
    rw [freshWalletAlerts_eq_nil_of_value (by
          norm_num [midTrade, defaultThresholds]),
        unusualSizeAlerts_eq_nil_of_short (by
          simp [stage2, c6sA, mktM, midKey]),
        nicheAlerts_eq_nil_of_count (by
          simp only [stage3, stage2, recordSize_wallet_history,
            recordPrice_wallet_history, recordWalletHistory_wallet_history,
            updFun, c6sA, mkEntry, midTrade, mktM]
          rw [if_neg (by decide : ¬ (("B" : String) = "D")),
            if_neg (by decide : ¬ (("B" : String) = "A"))]
          norm_num [defaultThresholds]),
        convictionAlerts_eq_nil_of_short (by
          simp [stage4, stage3, stage2, recordOutcome_wallet_outcomes,
            updFun, c6sA, mkOutcome, midTrade]),
        preMoveAlerts_eq_nil_of_value (by
          norm_num [midTrade, defaultThresholds]),
        coordAlerts_eq_nil_of_count (by
          simp only [stage4, stage3, stage2, recordOutcome_wallets,
            recordSize_wallets, recordPrice_wallets,
            recordWalletHistory_wallets, recordOutcome_wallet_history,
            recordSize_wallet_history, recordPrice_wallet_history,
            recordWalletHistory_wallet_history, updFun, c6sA, midTrade,
            mktM, takeLast, mkEntry]
          simp [List.filter, hBA]
          norm_num [defaultThresholds])]
    rfl
  rw [analyze_eq hk, hA]
  rw [if_pos rfl]
  refine Prod.ext_iff.mpr ⟨rfl, ?_⟩
  apply botState_ext
  · simp [stage4, stage3, stage2, recordWalletHistory_wallets, c6sA,
      c6sB, midTrade]
  · funext w
    by_cases hw : w = "D"
    · simp [stage4, stage3, stage2, recordWalletHistory_wallet_history,
        updFun, c6sA, c6sB, hw, midTrade]
    · by_cases hw2 : w = "A"
      · simp [stage4, stage3, stage2, recordWalletHistory_wallet_history,
          updFun, c6sA, c6sB, hw, hw2, midTrade]
      · by_cases hw3 : w = "B" <;>
          simp [stage4, stage3, stage2,
            recordWalletHistory_wallet_history, updFun, c6sA, c6sB, hw,
            hw2, hw3, midTrade]
  · funext m
    by_cases hm : m = "M" <;>
      simp [stage4, stage3, stage2, recordSize_market_volumes, updFun,
        c6sA, c6sB, hm, midTrade, mktM, midKey, truthyId, trimWindow]
  · funext m
    by_cases hm : m = "M" <;>
      simp [stage4, stage3, stage2, recordPrice_market_prices, updFun,
        c6sA, c6sB, hm, midTrade, mktM, midKey, truthyId, trimWindow]
  · funext w
    by_cases hw : w = "D"
    · simp [stage4, stage3, stage2, recordOutcome_wallet_outcomes, updFun,
        c6sA, c6sB, hw, midTrade, mktM, mkOutcome]
    · by_cases hw2 : w = "A"
      · simp [stage4, stage3, stage2, recordOutcome_wallet_outcomes,
          updFun, c6sA, c6sB, hw, hw2, midTrade, mktM, mkOutcome]
      · by_cases hw3 : w = "B" <;>
          simp [stage4, stage3, stage2, recordOutcome_wallet_outcomes,
            updFun, c6sA, c6sB, hw, hw2, hw3, midTrade, mktM, mkOutcome]
  · simp [stage4, stage3, stage2, c6sA, c6sB]

/-- C6, call 4: wallet C trades Yes at tC on c6sB; A and B both match
(within 300 seconds by hypothesis), the distinct count 2 + 1 reaches the
threshold 3, and exactly the coordinated-entry alert is emitted. -/
lemma c6_call_C (tD tA tB tC now : Int)
    (hCA : (tC - tA).natAbs < 300) (hCB : (tC - tB).natAbs < 300) :
    (analyze_trade defaultThresholds now (c6sB tD tA tB)
      (midTrade "C" tC "Yes") mktM).1 =
      [{ kind := .coordinatedEntry, wallet := "C",
         key := keyOf (midTrade "C" tC "Yes") mktM }] := by
  have hk : keyOf (midTrade "C" tC "Yes") mktM ∉
      (c6sB tD tA tB).sent_alerts := by simp [c6sB]
  rw [analyze_fst hk]
  unfold alertsOf
  have hfil : (stage4 (c6sB tD tA tB) (midTrade "C" tC "Yes")
      mktM).wallets.filter
      (fun w => (!(w == (midTrade "C" tC "Yes").maker_address)) &&
        (takeLast 5 ((stage4 (c6sB tD tA tB) (midTrade "C" tC "Yes")
            mktM).wallet_history w)).any (fun e =>
          (e.market_id == mktM.condition_id) &&
          (e.outcome == (midTrade "C" tC "Yes").outcome) &&
          decide (((midTrade "C" tC "Yes").timestamp - e.timestamp).natAbs
            < 300))) = ["A", "B"] := by
    simp only [stage4, stage3, stage2, recordOutcome_wallets,
      recordSize_wallets, recordPrice_wallets, recordWalletHistory_wallets,
      recordOutcome_wallet_history, recordSize_wallet_history,
      recordPrice_wallet_history, recordWalletHistory_wallet_history,
      updFun, c6sB, midTrade, mktM, takeLast, mkEntry]
    simp [List.filter, hCA, hCB]
  rw [freshWalletAlerts_eq_nil_of_value (by
        norm_num [midTrade, defaultThresholds]),
      unusualSizeAlerts_eq_nil_of_short (by
        simp [stage2, c6sB, mktM, midKey]),
      nicheAlerts_eq_nil_of_count (by
        simp only [stage3, stage2, recordSize_wallet_history,
          recordPrice_wallet_history, recordWalletHistory_wallet_history,
          updFun, c6sB, mkEntry, midTrade, mktM]
        rw [if_neg (by decide : ¬ (("C" : String) = "D")),
          if_neg (by decide : ¬ (("C" : String) = "A")),
          if_neg (by decide : ¬ (("C" : String) = "B"))]
        norm_num [defaultThresholds]),
      convictionAlerts_eq_nil_of_short (by
        simp [stage4, stage3, stage2, recordOutcome_wallet_outcomes,
          updFun, c6sB, mkOutcome, midTrade]),
      preMoveAlerts_eq_nil_of_value (by
        norm_num [midTrade, defaultThresholds]),
      coordAlerts_eq_of_fire ⟨by decide,
        by norm_num [midTrade, defaultThresholds]⟩ (by
          rw [hfil,
            show (["A", "B"] : List String).dedup = ["A", "B"] by decide]
          norm_num [defaultThresholds])]
  simp [midTrade]

end PolymarketBot

namespace PolymarketBot

/-- C6: wallets A, B, C trade outcome Yes on market M pairwise within 300
seconds with value 500 above coordinated_min_value = 200, wallet D trades
outcome No; processing D, A, B, C in order under the default thresholds
(coordinated_min_wallets = 3) yields no Coordinated-Entry alert on the A
and B trades and exactly one on the C trade (distinct matching wallets A
and B, plus C itself, reach 3; D is never counted). -/
theorem coordinated_entry_scenario (tD tA tB tC now : Int)
    (hBA : (tB - tA).natAbs < 300) (hCA : (tC - tA).natAbs < 300)
    (hCB : (tC - tB).natAbs < 300) :
    (((analyze_trade defaultThresholds now
        (analyze_trade defaultThresholds now initState
          (midTrade "D" tD "No") mktM).2
        (midTrade "A" tA "Yes") mktM).1.map Alert.kind).count
      AlertKind.coordinatedEntry = 0) ∧
    (((analyze_trade defaultThresholds now
        (analyze_trade defaultThresholds now
          (analyze_trade defaultThresholds now initState
            (midTrade "D" tD "No") mktM).2
          (midTrade "A" tA "Yes") mktM).2
        (midTrade "B" tB "Yes") mktM).1.map Alert.kind).count
      AlertKind.coordinatedEntry = 0) ∧
    (((analyze_trade defaultThresholds now
        (analyze_trade defaultThresholds now
          (analyze_trade defaultThresholds now
            (analyze_trade defaultThresholds now initState
              (midTrade "D" tD "No") mktM).2
            (midTrade "A" tA "Yes") mktM).2
          (midTrade "B" tB "Yes") mktM).2
        (midTrade "C" tC "Yes") mktM).1.map Alert.kind).count
      AlertKind.coordinatedEntry = 1) := by
  simp only [c6_call_D tD now, c6_call_A tD tA now,
    c6_call_B tD tA tB now hBA, c6_call_C tD tA tB tC now hCA hCB]
  simp

/-- Witness for C6 at the concrete timestamps 0, 0, 10, 20. -/
theorem coordinated_entry_scenario_witness :
    (((analyze_trade defaultThresholds 0
        (analyze_trade defaultThresholds 0 initState
          (midTrade "D" 0 "No") mktM).2
        (midTrade "A" 0 "Yes") mktM).1.map Alert.kind).count
      AlertKind.coordinatedEntry = 0) ∧
    (((analyze_trade defaultThresholds 0
        (analyze_trade defaultThresholds 0
          (analyze_trade defaultThresholds 0 initState
            (midTrade "D" 0 "No") mktM).2
          (midTrade "A" 0 "Yes") mktM).2
        (midTrade "B" 10 "Yes") mktM).1.map Alert.kind).count
      AlertKind.coordinatedEntry = 0) ∧
    (((analyze_trade defaultThresholds 0
        (analyze_trade defaultThresholds 0
          (analyze_trade defaultThresholds 0
            (analyze_trade defaultThresholds 0 initState
              (midTrade "D" 0 "No") mktM).2
            (midTrade "A" 0 "Yes") mktM).2
          (midTrade "B" 10 "Yes") mktM).2
        (midTrade "C" 20 "Yes") mktM).1.map Alert.kind).count
      AlertKind.coordinatedEntry = 1) :=
  coordinated_entry_scenario 0 0 10 20 0 (by decide) (by decide)
    (by decide)

end PolymarketBot
